import Mathlib

/-!
# ck_rwlock: a shallow embedding of `include/ck_rwlock.h`

The lock is two `unsigned int` words, `writer` and `n_readers`.  Machine
words are natural numbers; every arithmetic update is reduced modulo
`2 ^ 32 = 4294967296`.  A decrement adds `2 ^ 32 - 1 = 4294967295` modulo
`2 ^ 32`; the constant is written first so that reduction of the sum stops at
the variable.
Fences and `ck_pr_stall` do not change the two words and are left out.

* Section 1: the atomic primitives of `ck_pr.h` the header uses.
* Section 2: the base lock, one call at a time with no other thread acting.
  Spin loops take a fuel argument (one unit per evaluation of the loop test).
* Section 3: the same read-side code with the values observed by the loads of
  `writer` supplied from outside (another thread may change `writer`).
* Section 4: the recursive writer lock.
* Section 5: the interleaving model, one atomic operation per step.
  Section 5a: the accelerated (hardware transaction) entry points.
  Section 5b: repeated calls, atomic actions, correct usage of the recursive lock.
* Sections 6 to 12: lemmas and the properties of the lock.
-/

namespace CkRwlock

/-! ## 1. State and atomic primitives -/

/-- The `struct ck_rwlock` of the header. -/
structure ck_rwlock where
  writer : Nat
  n_readers : Nat
deriving DecidableEq

/-- The static initializer `{0, 0}`. -/
def CK_RWLOCK_INITIALIZER : ck_rwlock := ⟨0, 0⟩

/-- Atomic `ck_pr_fas_uint(&rw->writer, v)`: store `v`, return the old value. -/
def ck_pr_fas_uint_writer (rw : ck_rwlock) (v : Nat) : Nat × ck_rwlock :=
  (rw.writer, ⟨v, rw.n_readers⟩)

/-- Atomic `ck_pr_cas_uint(&rw->writer, cmp, set)`: store `set` only when the
word equals `cmp`; the boolean tells whether the store happened. -/
def ck_pr_cas_uint_writer (rw : ck_rwlock) (cmp set : Nat) : Bool × ck_rwlock :=
  if rw.writer = cmp then (true, ⟨set, rw.n_readers⟩) else (false, rw)

/-- Atomic `ck_pr_store_uint(&rw->writer, v)`. -/
def ck_pr_store_uint_writer (rw : ck_rwlock) (v : Nat) : ck_rwlock :=
  ⟨v, rw.n_readers⟩

/-- Atomic `ck_pr_load_uint(&rw->writer)`. -/
def ck_pr_load_uint_writer (rw : ck_rwlock) : Nat := rw.writer

/-- Atomic `ck_pr_load_uint(&rw->n_readers)`. -/
def ck_pr_load_uint_n_readers (rw : ck_rwlock) : Nat := rw.n_readers

/-- Atomic `ck_pr_inc_uint(&rw->n_readers)`, modulo `2 ^ 32`. -/
def ck_pr_inc_uint_n_readers (rw : ck_rwlock) : ck_rwlock :=
  ⟨rw.writer, (rw.n_readers + 1) % 4294967296⟩

/-- Atomic `ck_pr_dec_uint(&rw->n_readers)`, modulo `2 ^ 32`. -/
def ck_pr_dec_uint_n_readers (rw : ck_rwlock) : ck_rwlock :=
  ⟨rw.writer, (4294967295 + rw.n_readers) % 4294967296⟩

/-! ## 2. The base lock, sequentially -/

/-- `ck_rwlock_init`: both words are reset. -/
def ck_rwlock_init (_rw : ck_rwlock) : ck_rwlock := ⟨0, 0⟩

/-- `ck_rwlock_write_unlock`: fence, then store 0 into `writer`. -/
def ck_rwlock_write_unlock (rw : ck_rwlock) : ck_rwlock :=
  ck_pr_store_uint_writer rw 0

/-- `ck_rwlock_write_downgrade`: increment `n_readers`, then `write_unlock`. -/
def ck_rwlock_write_downgrade (rw : ck_rwlock) : ck_rwlock :=
  ck_rwlock_write_unlock (ck_pr_inc_uint_n_readers rw)

/-- The states `ck_rwlock_write_downgrade` passes through, one per atomic
operation, in program order: after the increment, after the store. -/
def ck_rwlock_write_downgrade_steps (rw : ck_rwlock) : List ck_rwlock :=
  [ck_pr_inc_uint_n_readers rw, ck_rwlock_write_unlock (ck_pr_inc_uint_n_readers rw)]

/-- `ck_rwlock_write_trylock`: one exchange; on success one load of
`n_readers`, with `write_unlock` when readers are present. -/
def ck_rwlock_write_trylock (rw : ck_rwlock) : Bool × ck_rwlock :=
  let r := ck_pr_fas_uint_writer rw 1
  if r.1 ≠ 0 then (false, r.2)
  else if ck_pr_load_uint_n_readers r.2 ≠ 0 then (false, ck_rwlock_write_unlock r.2)
  else (true, r.2)

/-- First loop of `ck_rwlock_write_lock`:
`while (ck_pr_fas_uint(&rw->writer, 1) != 0) ck_pr_stall();`. -/
def ck_rwlock_write_lock_acquire : Nat → ck_rwlock → Option ck_rwlock
  | 0, _ => none
  | fuel + 1, rw =>
    let r := ck_pr_fas_uint_writer rw 1
    if r.1 ≠ 0 then ck_rwlock_write_lock_acquire fuel r.2 else some r.2

/-- Second loop of `ck_rwlock_write_lock`:
`while (ck_pr_load_uint(&rw->n_readers) != 0) ck_pr_stall();`. -/
def ck_rwlock_write_lock_drain : Nat → ck_rwlock → Option ck_rwlock
  | 0, _ => none
  | fuel + 1, rw =>
    if ck_pr_load_uint_n_readers rw ≠ 0 then ck_rwlock_write_lock_drain fuel rw
    else some rw

/-- `ck_rwlock_write_lock`: the exchange loop, then the drain loop. `none`
means the fuel ran out while spinning. -/
def ck_rwlock_write_lock (fuel : Nat) (rw : ck_rwlock) : Option ck_rwlock :=
  (ck_rwlock_write_lock_acquire fuel rw).bind (ck_rwlock_write_lock_drain fuel)

/-- `ck_rwlock_read_trylock`: load `writer`, increment, load `writer` again,
decrement when a writer is seen. -/
def ck_rwlock_read_trylock (rw : ck_rwlock) : Bool × ck_rwlock :=
  if ck_pr_load_uint_writer rw ≠ 0 then (false, rw)
  else
    let rw1 := ck_pr_inc_uint_n_readers rw
    if ck_pr_load_uint_writer rw1 = 0 then (true, rw1)
    else (false, ck_pr_dec_uint_n_readers rw1)

/-- `ck_rwlock_read_lock`.  The inner wait loop and the enclosing `for (;;)`
share their head, so one unit of fuel is one evaluation of the inner test. -/
def ck_rwlock_read_lock : Nat → ck_rwlock → Option ck_rwlock
  | 0, _ => none
  | fuel + 1, rw =>
    if ck_pr_load_uint_writer rw ≠ 0 then ck_rwlock_read_lock fuel rw
    else
      let rw1 := ck_pr_inc_uint_n_readers rw
      if ck_pr_load_uint_writer rw1 = 0 then some rw1
      else ck_rwlock_read_lock fuel (ck_pr_dec_uint_n_readers rw1)

/-- `ck_rwlock_read_unlock`: fence, then decrement `n_readers`. -/
def ck_rwlock_read_unlock (rw : ck_rwlock) : ck_rwlock :=
  ck_pr_dec_uint_n_readers rw

/-! ## 3. The read side with observed values of `writer`

The two loads of `writer` return `w1` and `w2`, whatever other threads stored
there; the resulting state records what this call itself wrote. -/

/-- `ck_rwlock_read_trylock` where the first load of `writer` observes `w1`
and the second observes `w2`. -/
def ck_rwlock_read_trylock_obs (rw : ck_rwlock) (w1 w2 : Nat) : Bool × ck_rwlock :=
  if w1 ≠ 0 then (false, rw)
  else
    let rw1 := ck_pr_inc_uint_n_readers rw
    if w2 = 0 then (true, rw1)
    else (false, ck_pr_dec_uint_n_readers rw1)

/-- One pass through the body of the `for (;;)` of `ck_rwlock_read_lock`, from
the exit of the inner wait loop (whose last load observed 0) to the `break`
or to the decrement: `w2` is the value observed by the re-check.  The boolean
is true when the pass breaks out. -/
def ck_rwlock_read_lock_pass (rw : ck_rwlock) (w2 : Nat) : Bool × ck_rwlock :=
  let rw1 := ck_pr_inc_uint_n_readers rw
  if w2 = 0 then (true, rw1) else (false, ck_pr_dec_uint_n_readers rw1)

/-- `ck_rwlock_read_lock` where the i-th load of `writer` observes `obs i`
(`k` is the number of loads made so far). -/
def ck_rwlock_read_lock_obs (obs : Nat → Nat) : Nat → Nat → ck_rwlock → Option ck_rwlock
  | 0, _, _ => none
  | fuel + 1, k, rw =>
    if obs k ≠ 0 then ck_rwlock_read_lock_obs obs fuel (k + 1) rw
    else
      match ck_rwlock_read_lock_pass rw (obs (k + 1)) with
      | (true, rw1) => some rw1
      | (false, rw1) => ck_rwlock_read_lock_obs obs fuel (k + 2) rw1

/-! ## 4. The recursive writer lock -/

/-- The `struct ck_rwlock_recursive` of the header. -/
structure ck_rwlock_recursive where
  rw : ck_rwlock
  wc : Nat
deriving DecidableEq

/-- The static initializer `{CK_RWLOCK_INITIALIZER, 0}`. -/
def CK_RWLOCK_RECURSIVE_INITIALIZER : ck_rwlock_recursive := ⟨CK_RWLOCK_INITIALIZER, 0⟩

/-- The statement `rw->wc++` on an `unsigned int`. -/
def wc_incr (rw : ck_rwlock_recursive) : ck_rwlock_recursive :=
  ⟨rw.rw, (rw.wc + 1) % 4294967296⟩

/-- First loop of `ck_rwlock_recursive_write_lock`:
`while (ck_pr_cas_uint(&rw->rw.writer, 0, tid) == false) ck_pr_stall();`. -/
def ck_rwlock_recursive_write_lock_acquire (tid : Nat) : Nat → ck_rwlock → Option ck_rwlock
  | 0, _ => none
  | fuel + 1, rw =>
    let r := ck_pr_cas_uint_writer rw 0 tid
    if r.1 = false then ck_rwlock_recursive_write_lock_acquire tid fuel r.2 else some r.2

/-- `ck_rwlock_recursive_write_lock`: nested entry when `writer` is `tid`,
otherwise the compare-and-swap loop and the drain loop (the same loop on
`n_readers` as in `ck_rwlock_write_lock`); then `wc++`. -/
def ck_rwlock_recursive_write_lock (fuel : Nat) (rw : ck_rwlock_recursive) (tid : Nat) :
    Option ck_rwlock_recursive :=
  let o := ck_pr_load_uint_writer rw.rw
  if o = tid then some (wc_incr rw)
  else
    ((ck_rwlock_recursive_write_lock_acquire tid fuel rw.rw).bind
      (ck_rwlock_write_lock_drain fuel)).map (fun l => wc_incr ⟨l, rw.wc⟩)

/-- `ck_rwlock_recursive_write_trylock`. -/
def ck_rwlock_recursive_write_trylock (rw : ck_rwlock_recursive) (tid : Nat) :
    Bool × ck_rwlock_recursive :=
  let o := ck_pr_load_uint_writer rw.rw
  if o = tid then (true, wc_incr rw)
  else
    let r := ck_pr_cas_uint_writer rw.rw 0 tid
    if r.1 = false then (false, ⟨r.2, rw.wc⟩)
    else if ck_pr_load_uint_n_readers r.2 ≠ 0 then
      (false, ⟨ck_pr_store_uint_writer r.2 0, rw.wc⟩)
    else (true, wc_incr ⟨r.2, rw.wc⟩)

/-- `ck_rwlock_recursive_write_unlock`: `if (--rw->wc == 0)` store 0 into
`writer`. -/
def ck_rwlock_recursive_write_unlock (rw : ck_rwlock_recursive) : ck_rwlock_recursive :=
  let wc1 := (4294967295 + rw.wc) % 4294967296
  if wc1 = 0 then ⟨ck_pr_store_uint_writer rw.rw 0, wc1⟩ else ⟨rw.rw, wc1⟩

/-- `ck_rwlock_recursive_read_lock` delegates to `ck_rwlock_read_lock`. -/
def ck_rwlock_recursive_read_lock (fuel : Nat) (rw : ck_rwlock_recursive) :
    Option ck_rwlock_recursive :=
  (ck_rwlock_read_lock fuel rw.rw).map (fun l => ⟨l, rw.wc⟩)

/-- `ck_rwlock_recursive_read_trylock` delegates to `ck_rwlock_read_trylock`. -/
def ck_rwlock_recursive_read_trylock (rw : ck_rwlock_recursive) : Bool × ck_rwlock_recursive :=
  ((ck_rwlock_read_trylock rw.rw).1, ⟨(ck_rwlock_read_trylock rw.rw).2, rw.wc⟩)

/-- `ck_rwlock_recursive_read_unlock` delegates to `ck_rwlock_read_unlock`. -/
def ck_rwlock_recursive_read_unlock (rw : ck_rwlock_recursive) : ck_rwlock_recursive :=
  ⟨ck_rwlock_read_unlock rw.rw, rw.wc⟩

/-- `n` successive calls of `ck_rwlock_recursive_write_lock(rw, tid)`. -/
def write_lock_times (fuel tid : Nat) : Nat → ck_rwlock_recursive → Option ck_rwlock_recursive
  | 0, rw => some rw
  | n + 1, rw =>
    (ck_rwlock_recursive_write_lock fuel rw tid).bind (write_lock_times fuel tid n)

/-- `k` successive calls of `ck_rwlock_recursive_write_unlock(rw)`. -/
def write_unlock_times : Nat → ck_rwlock_recursive → ck_rwlock_recursive
  | 0, rw => rw
  | k + 1, rw => write_unlock_times k (ck_rwlock_recursive_write_unlock rw)

/-! ## 5. The interleaving model

Every thread is at a program point; a step lets one thread perform the one
atomic operation at its program point.  A thread that is outside any call
enters the operation it chooses and performs its first atomic operation. -/

/-- Program points of a thread: the next atomic operation it will perform. -/
inductive PC
  /-- outside any call, holding nothing -/
  | idle
  /-- `write_lock`: at the exchange of the first loop -/
  | wl_fas
  /-- `write_lock`: at the load of `n_readers` of the second loop -/
  | wl_drain
  /-- `write_trylock`: at the exchange -/
  | wt_fas
  /-- `write_trylock`: at the load of `n_readers` -/
  | wt_check
  /-- `write_trylock`: at the `write_unlock` of the failing branch -/
  | wt_rollback
  /-- `write_lock` completed or `write_trylock` returned true; the next
  operation is the store of `write_unlock` -/
  | w_held
  /-- `read_lock`: at the load of the inner wait loop -/
  | rl_wait
  /-- `read_lock`: at the increment -/
  | rl_inc
  /-- `read_lock`: at the second load of `writer` -/
  | rl_recheck
  /-- `read_lock`: at the decrement before retrying -/
  | rl_dec
  /-- `read_trylock`: at the first load of `writer` -/
  | rt_load
  /-- `read_trylock`: at the increment -/
  | rt_inc
  /-- `read_trylock`: at the second load of `writer` -/
  | rt_recheck
  /-- `read_trylock`: at the decrement of the failing branch -/
  | rt_dec
  /-- `read_lock` completed or `read_trylock` returned true; the next
  operation is the decrement of `read_unlock` -/
  | r_held
deriving DecidableEq

/-- The acquiring operations a thread may call. -/
inductive Op
  | write_lock
  | write_trylock
  | read_lock
  | read_trylock
deriving DecidableEq

/-- First program point of each operation. -/
def Op.entry : Op → PC
  | .write_lock => .wl_fas
  | .write_trylock => .wt_fas
  | .read_lock => .rl_wait
  | .read_trylock => .rt_load

/-- The atomic operation at a program point: the next program point and the
new lock words. -/
def tstep : PC → ck_rwlock → PC × ck_rwlock
  | .idle, rw => (.idle, rw)
  | .wl_fas, rw =>
    let r := ck_pr_fas_uint_writer rw 1
    (if r.1 ≠ 0 then .wl_fas else .wl_drain, r.2)
  | .wl_drain, rw => (if ck_pr_load_uint_n_readers rw ≠ 0 then .wl_drain else .w_held, rw)
  | .wt_fas, rw =>
    let r := ck_pr_fas_uint_writer rw 1
    (if r.1 ≠ 0 then .idle else .wt_check, r.2)
  | .wt_check, rw => (if ck_pr_load_uint_n_readers rw ≠ 0 then .wt_rollback else .w_held, rw)
  | .wt_rollback, rw => (.idle, ck_rwlock_write_unlock rw)
  | .w_held, rw => (.idle, ck_rwlock_write_unlock rw)
  | .rl_wait, rw => (if ck_pr_load_uint_writer rw ≠ 0 then .rl_wait else .rl_inc, rw)
  | .rl_inc, rw => (.rl_recheck, ck_pr_inc_uint_n_readers rw)
  | .rl_recheck, rw => (if ck_pr_load_uint_writer rw = 0 then .r_held else .rl_dec, rw)
  | .rl_dec, rw => (.rl_wait, ck_pr_dec_uint_n_readers rw)
  | .rt_load, rw => (if ck_pr_load_uint_writer rw ≠ 0 then .idle else .rt_inc, rw)
  | .rt_inc, rw => (.rt_recheck, ck_pr_inc_uint_n_readers rw)
  | .rt_recheck, rw => (if ck_pr_load_uint_writer rw = 0 then .r_held else .rt_dec, rw)
  | .rt_dec, rw => (.idle, ck_pr_dec_uint_n_readers rw)
  | .r_held, rw => (.idle, ck_rwlock_read_unlock rw)

/-- The shared lock and the program point of every thread. -/
structure Sys where
  rw : ck_rwlock
  pc : Nat → PC

/-- Initial system: the initialised lock, every thread outside any call. -/
def Sys.init : Sys := ⟨CK_RWLOCK_INITIALIZER, fun _ => PC.idle⟩

/-- The program point whose atomic operation thread `t` performs next; an idle
thread enters `op`. -/
def Sys.next (s : Sys) (t : Nat) (op : Op) : PC :=
  if s.pc t = PC.idle then op.entry else s.pc t

/-- One step: thread `t` performs one atomic operation. -/
def Sys.step (s : Sys) (t : Nat) (op : Op) : Sys :=
  ⟨(tstep (s.next t op) s.rw).2, Function.update s.pc t (tstep (s.next t op) s.rw).1⟩

/-- States reachable with threads `0 .. n-1`, each calling operations from
`allowed` only. -/
inductive Reachable (n : Nat) (allowed : Op → Prop) : Sys → Prop
  | init : Reachable n allowed Sys.init
  | step {s : Sys} (t : Nat) (op : Op) :
      Reachable n allowed s → t < n → allowed op → Reachable n allowed (s.step t op)

/-- Threads that only take and release the write lock. -/
def writerOps (op : Op) : Prop := op = Op.write_lock ∨ op = Op.write_trylock

/-- Threads that call `write_lock`, `read_lock` or `read_trylock`. -/
def rwOps (op : Op) : Prop :=
  op = Op.write_lock ∨ op = Op.read_lock ∨ op = Op.read_trylock

/-- Program points at which the thread owns the `writer` flag: its exchange
returned 0 and it has not yet stored 0. -/
def PC.owning : PC → Bool
  | .wl_drain | .wt_check | .wt_rollback | .w_held => true
  | _ => false

/-- Program points at which the thread has incremented `n_readers` and not
yet decremented it. -/
def PC.counted : PC → Bool
  | .rl_recheck | .rl_dec | .rt_recheck | .rt_dec | .r_held => true
  | _ => false

/-- Number of threads among `0 .. n-1` that are at a counted program point. -/
def countedThreads (pc : Nat → PC) : Nat → Nat
  | 0 => 0
  | n + 1 => countedThreads pc n + (if (pc n).counted then 1 else 0)

/-- The system after threads `1 .. k` have each completed `read_lock` on the
initialised lock. -/
def readersIn (k : Nat) : Sys :=
  ⟨⟨0, k % 4294967296⟩, fun t => if 1 ≤ t ∧ t ≤ k then PC.r_held else PC.idle⟩

/-- Thread 0 inside the write lock together with threads `1 .. 2 ^ 32` inside
the read lock. -/
def crowded : Sys :=
  ⟨⟨1, 0⟩, fun t => if t = 0 then PC.w_held else if t ≤ 4294967296 then PC.r_held else PC.idle⟩

/-- Writer invariant: an owning thread implies `writer` is non-zero, and at
most one thread is owning. -/
def InvW (s : Sys) : Prop :=
  (∀ t, (s.pc t).owning = true → s.rw.writer ≠ 0) ∧
  (∀ t1 t2, (s.pc t1).owning = true → (s.pc t2).owning = true → t1 = t2)

/-- Reader invariant for a system of `n` threads: threads `n` and above stay
idle, `n_readers` is the number of counted threads modulo `2 ^ 32`, and a
thread inside the write lock excludes threads inside the read lock. -/
def InvR (n : Nat) (s : Sys) : Prop :=
  (∀ t, n ≤ t → s.pc t = PC.idle) ∧
  s.rw.n_readers = countedThreads s.pc n % 4294967296 ∧
  (∀ w r, s.pc w = PC.w_held → s.pc r ≠ PC.r_held)

/-! ## 5a. The accelerated entry points (`CK_F_PR_RTM`)

`ck_pr_rtm_begin`, `ck_pr_rtm_abort` and `ck_pr_rtm_end` belong to `ck_pr.h`;
they are modelled from the description of the hardware transaction in the
specification. -/

/-- Modelled from the spec: the result of `ck_pr_rtm_begin()` (declared in
`ck_pr.h`, which is not among the sources).  `started` is
`CK_PR_RTM_STARTED`; `failed` is any other status: the transaction did not
begin (contention, nesting limit, unsupported) or it was aborted. -/
inductive ck_pr_rtm_status
  | started
  | failed
deriving DecidableEq

/-- The lock words together with whether the calling thread has a hardware
transaction open. -/
structure rtm_view where
  rw : ck_rwlock
  txn : Bool
deriving DecidableEq

/-- Modelled from the spec: `ck_pr_rtm_abort(0)` (declared in `ck_pr.h`).  The
abort rolls back every transactional effect, so the lock words are those at
the begin, and the caller continues as after a `ck_pr_rtm_begin` that did not
return `CK_PR_RTM_STARTED`: `resume` is the code it runs in that case. -/
def ck_pr_rtm_abort {α : Type} (at_begin : ck_rwlock) (resume : ck_rwlock → α) : α :=
  resume at_begin

/-- Modelled from the spec: `ck_pr_rtm_end()` (declared in `ck_pr.h`) commits
the open transaction; no lock word is written and no transaction is open
afterwards. -/
def ck_pr_rtm_end (s : rtm_view) : rtm_view := ⟨s.rw, false⟩

/-- `ck_rwlock_write_unlock_rtm`: commit when `writer` is observed 0,
otherwise `ck_rwlock_write_unlock`. -/
def ck_rwlock_write_unlock_rtm (s : rtm_view) : rtm_view :=
  if ck_pr_load_uint_writer s.rw = 0 then ck_pr_rtm_end s
  else ⟨ck_rwlock_write_unlock s.rw, s.txn⟩

/-- `ck_rwlock_write_downgrade_rtm`: the ordinary downgrade when `writer` is
non-zero, nothing otherwise. -/
def ck_rwlock_write_downgrade_rtm (s : rtm_view) : rtm_view :=
  if ck_pr_load_uint_writer s.rw ≠ 0 then ⟨ck_rwlock_write_downgrade s.rw, s.txn⟩
  else s

/-- `ck_rwlock_write_trylock_rtm`: false when the transaction does not begin;
inside the transaction, abort when `writer` or `n_readers` is non-zero,
otherwise return true with the transaction open. -/
def ck_rwlock_write_trylock_rtm (status : ck_pr_rtm_status) (rw : ck_rwlock) :
    Bool × rtm_view :=
  if status ≠ ck_pr_rtm_status.started then (false, ⟨rw, false⟩)
  else
    let r := decide (ck_pr_load_uint_writer rw ≠ 0)
    if (r || decide (ck_pr_load_uint_n_readers rw ≠ 0)) = true then
      ck_pr_rtm_abort rw (fun rw0 => (false, ⟨rw0, false⟩))
    else (true, ⟨rw, true⟩)

/-- `ck_rwlock_write_lock_rtm`: `ck_rwlock_write_lock` when the transaction
does not begin; inside the transaction, abort when `writer` or `n_readers` is
non-zero, otherwise return with the transaction open. -/
def ck_rwlock_write_lock_rtm (fuel : Nat) (status : ck_pr_rtm_status) (rw : ck_rwlock) :
    Option rtm_view :=
  if status ≠ ck_pr_rtm_status.started then
    (ck_rwlock_write_lock fuel rw).map (fun l => ⟨l, false⟩)
  else
    let r := decide (ck_pr_load_uint_writer rw ≠ 0)
    if (r || decide (ck_pr_load_uint_n_readers rw ≠ 0)) = true then
      ck_pr_rtm_abort rw (fun rw0 => (ck_rwlock_write_lock fuel rw0).map (fun l => ⟨l, false⟩))
    else some ⟨rw, true⟩

/-- `ck_rwlock_read_trylock_rtm`: false when the transaction does not begin;
inside the transaction, true when `writer` is 0, abort otherwise. -/
def ck_rwlock_read_trylock_rtm (status : ck_pr_rtm_status) (rw : ck_rwlock) :
    Bool × rtm_view :=
  if status ≠ ck_pr_rtm_status.started then (false, ⟨rw, false⟩)
  else if ck_pr_load_uint_writer rw = 0 then (true, ⟨rw, true⟩)
  else ck_pr_rtm_abort rw (fun rw0 => (false, ⟨rw0, false⟩))

/-- `ck_rwlock_read_lock_rtm`: inside the transaction, abort when `writer` is
non-zero and return otherwise; `ck_rwlock_read_lock` when the transaction does
not begin. -/
def ck_rwlock_read_lock_rtm (fuel : Nat) (status : ck_pr_rtm_status) (rw : ck_rwlock) :
    Option rtm_view :=
  if status = ck_pr_rtm_status.started then
    if ck_pr_load_uint_writer rw ≠ 0 then
      ck_pr_rtm_abort rw (fun rw0 => (ck_rwlock_read_lock fuel rw0).map (fun l => ⟨l, false⟩))
    else some ⟨rw, true⟩
  else (ck_rwlock_read_lock fuel rw).map (fun l => ⟨l, false⟩)

/-- `ck_rwlock_read_unlock_rtm`: commit when `n_readers` is observed 0,
otherwise `ck_rwlock_read_unlock`. -/
def ck_rwlock_read_unlock_rtm (s : rtm_view) : rtm_view :=
  if ck_pr_load_uint_n_readers s.rw = 0 then ck_pr_rtm_end s
  else ⟨ck_rwlock_read_unlock s.rw, s.txn⟩

/-! ## 5b. Repeated calls, atomic actions and correct usage -/

/-- `m` successive calls of `ck_rwlock_read_lock`. -/
def read_lock_times (fuel : Nat) : Nat → ck_rwlock → Option ck_rwlock
  | 0, rw => some rw
  | m + 1, rw => (ck_rwlock_read_lock fuel rw).bind (read_lock_times fuel m)

/-- `j` successive calls of `ck_rwlock_read_unlock`. -/
def read_unlock_times : Nat → ck_rwlock → ck_rwlock
  | 0, rw => rw
  | j + 1, rw => read_unlock_times j (ck_rwlock_read_unlock rw)

/-- The two plain stores of `ck_rwlock_init`, in program order. -/
def ck_rwlock_init_steps (rw : ck_rwlock) : List ck_rwlock :=
  [⟨0, rw.n_readers⟩, ⟨0, 0⟩]

/-- The `writer` word holds 0 or 1. -/
def writer_is_flag (rw : ck_rwlock) : Prop := rw.writer = 0 ∨ rw.writer = 1

instance writer_is_flag_decidable (rw : ck_rwlock) : Decidable (writer_is_flag rw) := by
  unfold writer_is_flag
  infer_instance

/-- The atomic actions on the lock words that occur in the base operations. -/
inductive BaseAtomic
  /-- `rw->writer = 0` in `ck_rwlock_init` -/
  | init_writer
  /-- `rw->n_readers = 0` in `ck_rwlock_init` -/
  | init_n_readers
  /-- `ck_pr_fas_uint(&rw->writer, 1)` in `write_lock` and `write_trylock` -/
  | fas_writer
  /-- `ck_pr_store_uint(&rw->writer, 0)` in `write_unlock`, also as called by
  `write_trylock` and `write_downgrade` -/
  | store_writer
  /-- a load of either word -/
  | load
  /-- `ck_pr_inc_uint(&rw->n_readers)` in `write_downgrade`, `read_trylock`,
  `read_lock` -/
  | inc_n_readers
  /-- `ck_pr_dec_uint(&rw->n_readers)` in `read_trylock`, `read_lock`,
  `read_unlock` -/
  | dec_n_readers
deriving DecidableEq

/-- Effect of an atomic action on the lock words. -/
def BaseAtomic.apply : BaseAtomic → ck_rwlock → ck_rwlock
  | .init_writer, rw => ⟨0, rw.n_readers⟩
  | .init_n_readers, rw => ⟨rw.writer, 0⟩
  | .fas_writer, rw => (ck_pr_fas_uint_writer rw 1).2
  | .store_writer, rw => ck_pr_store_uint_writer rw 0
  | .load, rw => rw
  | .inc_n_readers, rw => ck_pr_inc_uint_n_readers rw
  | .dec_n_readers, rw => ck_pr_dec_uint_n_readers rw

/-- Lock words reachable from the initialised lock by any sequence of atomic
actions of base operations, in any interleaving. -/
inductive BaseReachable : ck_rwlock → Prop
  | init : BaseReachable CK_RWLOCK_INITIALIZER
  | step {rw : ck_rwlock} (a : BaseAtomic) : BaseReachable rw → BaseReachable (a.apply rw)

/-- The relation between `wc` and `writer` in the recursive lock. -/
def wc_in_step (rw : ck_rwlock_recursive) : Prop := rw.wc = 0 ↔ rw.rw.writer = 0

instance wc_in_step_decidable (rw : ck_rwlock_recursive) : Decidable (wc_in_step rw) := by
  unfold wc_in_step
  infer_instance

/-- States of the recursive lock reachable from the initializer under correct
usage: owner identifiers are non-zero, the nesting depth stays below
`2 ^ 32 - 1`, and `write_unlock` is called with `wc >= 1`. -/
inductive RecReachable : ck_rwlock_recursive → Prop
  | init : RecReachable CK_RWLOCK_RECURSIVE_INITIALIZER
  | write_lock {rw rw1 : ck_rwlock_recursive} (fuel tid : Nat) :
      RecReachable rw → tid ≠ 0 → rw.wc < 4294967295 →
      ck_rwlock_recursive_write_lock fuel rw tid = some rw1 → RecReachable rw1
  | write_trylock {rw : ck_rwlock_recursive} (tid : Nat) :
      RecReachable rw → tid ≠ 0 → rw.wc < 4294967295 →
      RecReachable (ck_rwlock_recursive_write_trylock rw tid).2
  | write_unlock {rw : ck_rwlock_recursive} :
      RecReachable rw → 1 ≤ rw.wc → RecReachable (ck_rwlock_recursive_write_unlock rw)
  | read_lock {rw rw1 : ck_rwlock_recursive} (fuel : Nat) :
      RecReachable rw → ck_rwlock_recursive_read_lock fuel rw = some rw1 → RecReachable rw1
  | read_trylock {rw : ck_rwlock_recursive} :
      RecReachable rw → RecReachable (ck_rwlock_recursive_read_trylock rw).2
  | read_unlock {rw : ck_rwlock_recursive} :
      RecReachable rw → RecReachable (ck_rwlock_recursive_read_unlock rw)

/-! ## 6. Auxiliary lemmas -/

theorem owning_next (s : Sys) (t : Nat) (op : Op) :
    (s.next t op).owning = (s.pc t).owning := by
  unfold Sys.next
  split
  · rename_i h; rw [h]; cases op <;> rfl
  · rfl

theorem counted_next (s : Sys) (t : Nat) (op : Op) :
    (s.next t op).counted = (s.pc t).counted := by
  unfold Sys.next
  split
  · rename_i h; rw [h]; cases op <;> rfl
  · rfl

/-- How one atomic operation changes ownership of the `writer` flag. -/
theorem tstep_owning (p : PC) (rw : ck_rwlock) :
    (p.owning = true →
      ((tstep p rw).1.owning = true ∧ (tstep p rw).2.writer = rw.writer) ∨
      ((tstep p rw).1.owning = false ∧ (tstep p rw).2.writer = 0)) ∧
    (p.owning = false →
      ((tstep p rw).1.owning = false ∧ ((tstep p rw).2.writer = 0 ↔ rw.writer = 0)) ∨
      ((tstep p rw).1.owning = true ∧ rw.writer = 0 ∧ (tstep p rw).2.writer ≠ 0)) := by
  cases p <;> by_cases hw : rw.writer = 0 <;> by_cases hn : rw.n_readers = 0 <;>
    simp [tstep, PC.owning, ck_pr_fas_uint_writer, ck_pr_load_uint_n_readers,
      ck_pr_load_uint_writer, ck_rwlock_write_unlock, ck_pr_store_uint_writer,
      ck_pr_inc_uint_n_readers, ck_pr_dec_uint_n_readers, ck_rwlock_read_unlock, hw, hn]

theorem InvW_init : InvW Sys.init := by
  constructor <;> intros <;> simp_all [Sys.init, PC.owning]

theorem InvW_step (s : Sys) (t : Nat) (op : Op) (h : InvW s) : InvW (s.step t op) := by
  obtain ⟨h1, h2⟩ := h
  have key := tstep_owning (s.next t op) s.rw
  rw [owning_next] at key
  have upd : ∀ u, u ≠ t → (s.step t op).pc u = s.pc u := by
    intro u hu; simp [Sys.step, Function.update_noteq hu]
  have same : (s.step t op).pc t = (tstep (s.next t op) s.rw).1 := by
    simp [Sys.step]
  have hw : (s.step t op).rw = (tstep (s.next t op) s.rw).2 := rfl
  cases hown : (s.pc t).owning with
  | true =>
    rcases key.1 hown with ⟨_, hb⟩ | ⟨ha, _⟩
    · have others : ∀ u, ((s.step t op).pc u).owning = true → u = t := by
        intro u hu
        by_contra hne
        rw [upd u hne] at hu
        exact hne (h2 u t hu hown)
      refine ⟨fun u hu => ?_, fun u v hu hv => ?_⟩
      · rw [hw, hb]; exact h1 t hown
      · rw [others u hu, others v hv]
    · have none : ∀ u, ((s.step t op).pc u).owning = true → False := by
        intro u hu
        by_cases hut : u = t
        · subst hut; rw [same, ha] at hu; exact Bool.false_ne_true hu
        · rw [upd u hut] at hu
          exact hut (h2 u t hu hown)
      exact ⟨fun u hu => (none u hu).elim, fun u _ hu _ => (none u hu).elim⟩
  | false =>
    rcases key.2 hown with ⟨ha, hb⟩ | ⟨_, hb, hc⟩
    · have old : ∀ u, ((s.step t op).pc u).owning = true → u ≠ t ∧ (s.pc u).owning = true := by
        intro u hu
        by_cases hut : u = t
        · subst hut; rw [same, ha] at hu; exact (Bool.false_ne_true hu).elim
        · exact ⟨hut, by rw [upd u hut] at hu; exact hu⟩
      refine ⟨fun u hu => ?_, fun u v hu hv => ?_⟩
      · rw [hw]; intro hz; exact h1 u (old u hu).2 (hb.1 hz)
      · exact h2 u v (old u hu).2 (old v hv).2
    · have onlyT : ∀ u, ((s.step t op).pc u).owning = true → u = t := by
        intro u hu
        by_contra hne
        rw [upd u hne] at hu
        exact h1 u hu hb
      refine ⟨fun u _ => ?_, fun u v hu hv => ?_⟩
      · rw [hw]; exact hc
      · rw [onlyT u hu, onlyT v hv]

theorem InvW_reachable {n : Nat} {allowed : Op → Prop} {s : Sys}
    (h : Reachable n allowed s) : InvW s := by
  induction h with
  | init => exact InvW_init
  | step t op _ _ _ ih => exact InvW_step _ t op ih

/-- How one atomic operation changes `n_readers`, by whether the thread is
counted before and after. -/
theorem tstep_counted (p : PC) (rw : ck_rwlock) :
    ((tstep p rw).1.counted = p.counted → (tstep p rw).2.n_readers = rw.n_readers) ∧
    (p.counted = false → (tstep p rw).1.counted = true →
      (tstep p rw).2.n_readers = (rw.n_readers + 1) % 4294967296) ∧
    (p.counted = true → (tstep p rw).1.counted = false →
      (tstep p rw).2.n_readers = (4294967295 + rw.n_readers) % 4294967296) := by
  cases p <;> by_cases hw : rw.writer = 0 <;> by_cases hn : rw.n_readers = 0 <;>
    simp [tstep, PC.counted, ck_pr_fas_uint_writer, ck_pr_load_uint_n_readers,
      ck_pr_load_uint_writer, ck_rwlock_write_unlock, ck_pr_store_uint_writer,
      ck_pr_inc_uint_n_readers, ck_pr_dec_uint_n_readers, ck_rwlock_read_unlock, hw, hn]

/-- A thread enters the write lock only from a load of `n_readers` that
observes 0, at a program point that is not counted. -/
theorem tstep_w_held (p : PC) (rw : ck_rwlock) (h : (tstep p rw).1 = PC.w_held) :
    p.counted = false ∧ p ≠ PC.idle ∧ rw.n_readers = 0 := by
  cases p <;> by_cases hw : rw.writer = 0 <;> by_cases hn : rw.n_readers = 0 <;>
    simp_all [tstep, PC.counted, ck_pr_fas_uint_writer, ck_pr_load_uint_n_readers,
      ck_pr_load_uint_writer]

/-- A thread enters the read lock only from a load of `writer` that observes
0. -/
theorem tstep_r_held (p : PC) (rw : ck_rwlock) (h : (tstep p rw).1 = PC.r_held) :
    rw.writer = 0 := by
  cases p <;> by_cases hw : rw.writer = 0 <;> by_cases hn : rw.n_readers = 0 <;>
    simp_all [tstep, ck_pr_fas_uint_writer, ck_pr_load_uint_n_readers,
      ck_pr_load_uint_writer]

theorem countedThreads_update_ge (pc : Nat → PC) (t : Nat) (q : PC) :
    ∀ n, n ≤ t → countedThreads (Function.update pc t q) n = countedThreads pc n := by
  intro n
  induction n with
  | zero => intro _; rfl
  | succ n ih =>
    intro h
    have hne : n ≠ t := by omega
    simp only [countedThreads, ih (by omega), Function.update_noteq hne]

theorem countedThreads_update (pc : Nat → PC) (t : Nat) (q : PC) :
    ∀ n, t < n →
      countedThreads (Function.update pc t q) n + (if (pc t).counted then 1 else 0) =
        countedThreads pc n + (if q.counted then 1 else 0) := by
  intro n
  induction n with
  | zero => intro h; omega
  | succ n ih =>
    intro h
    by_cases hnt : n = t
    · subst hnt
      simp only [countedThreads, countedThreads_update_ge pc n q n (Nat.le_refl n),
        Function.update_same]
      omega
    · have := ih (by omega)
      simp only [countedThreads, Function.update_noteq hnt]
      omega

theorem countedThreads_le (pc : Nat → PC) : ∀ n, countedThreads pc n ≤ n := by
  intro n
  induction n with
  | zero => exact Nat.le_refl 0
  | succ n ih =>
    simp only [countedThreads]
    split <;> omega

theorem countedThreads_pos (pc : Nat → PC) (r : Nat) (hr : (pc r).counted = true) :
    ∀ n, r < n → 0 < countedThreads pc n := by
  intro n
  induction n with
  | zero => intro h; omega
  | succ n ih =>
    intro h
    by_cases hnr : n = r
    · subst hnr
      simp [countedThreads, hr]
    · have := ih (by omega)
      simp only [countedThreads]
      omega

theorem countedThreads_lt (pc : Nat → PC) (t : Nat) (ht : (pc t).counted = false) :
    ∀ n, t < n → countedThreads pc n < n := by
  intro n
  induction n with
  | zero => intro h; omega
  | succ n ih =>
    intro h
    by_cases hnt : n = t
    · subst hnt
      have := countedThreads_le pc n
      simp only [countedThreads, ht]
      simp
      omega
    · have := ih (by omega)
      simp only [countedThreads]
      split <;> omega

theorem InvR_init (n : Nat) : InvR n Sys.init := by
  refine ⟨fun _ _ => rfl, ?_, ?_⟩
  · have h : ∀ m, countedThreads (fun _ => PC.idle) m = 0 := by
      intro m
      induction m with
      | zero => rfl
      | succ m ih => simp [countedThreads, ih, PC.counted]
    show (0 : Nat) = countedThreads (fun _ => PC.idle) n % 4294967296
    rw [h]
  · intro w r hw
    simp [Sys.init] at hw

theorem InvR_step (n : Nat) (hn : n ≤ 4294967296) (s : Sys) (t : Nat) (op : Op)
    (ht : t < n) (hW : InvW s) (h : InvR n s) : InvR n (s.step t op) := by
  obtain ⟨hidle, hcount, hexcl⟩ := h
  have upd : ∀ u, u ≠ t → (s.step t op).pc u = s.pc u := by
    intro u hu; simp [Sys.step, Function.update_noteq hu]
  have same : (s.step t op).pc t = (tstep (s.next t op) s.rw).1 := by
    simp [Sys.step]
  have hrw : (s.step t op).rw = (tstep (s.next t op) s.rw).2 := rfl
  have hpc : (s.step t op).pc = Function.update s.pc t (tstep (s.next t op) s.rw).1 := rfl
  have key := tstep_counted (s.next t op) s.rw
  rw [counted_next] at key
  have hcu := countedThreads_update s.pc t (tstep (s.next t op) s.rw).1 n ht
  refine ⟨?_, ?_, ?_⟩
  · intro u hu
    rw [upd u (by omega)]
    exact hidle u hu
  · rw [hrw, hpc]
    cases hold : (s.pc t).counted <;> cases hnew : (tstep (s.next t op) s.rw).1.counted
    · rw [key.1 (by rw [hold, hnew]), hcount]
      simp only [hold, hnew] at hcu
      simp at hcu
      rw [hcu]
    · rw [key.2.1 hold hnew, hcount]
      simp only [hold, hnew] at hcu
      simp at hcu
      rw [hcu]
      omega
    · rw [key.2.2 hold hnew, hcount]
      simp only [hold, hnew] at hcu
      simp at hcu
      rw [← hcu]
      omega
    · rw [key.1 (by rw [hold, hnew]), hcount]
      simp only [hold, hnew] at hcu
      simp at hcu
      rw [hcu]
  · intro w r hw hr
    by_cases hwt : w = t
    · subst hwt
      rw [same] at hw
      obtain ⟨hnc, _, hzero⟩ := tstep_w_held _ _ hw
      rw [counted_next] at hnc
      have hrt : r ≠ w := by
        intro e; rw [e, same, hw] at hr; exact PC.noConfusion hr
      rw [upd r hrt] at hr
      have hrn : r < n := by
        by_contra hge
        have := hidle r (by omega)
        rw [this] at hr
        exact PC.noConfusion hr
      have hpos := countedThreads_pos s.pc r (by rw [hr]; rfl) n hrn
      have hlt := countedThreads_lt s.pc w hnc n ht
      rw [hcount] at hzero
      omega
    · rw [upd w hwt] at hw
      by_cases hrt : r = t
      · subst hrt
        rw [same] at hr
        have hz := tstep_r_held _ _ hr
        exact hW.1 w (by rw [hw]; rfl) hz
      · rw [upd r hrt] at hr
        exact hexcl w r hw hr

theorem InvR_reachable {n : Nat} {allowed : Op → Prop} {s : Sys} (hn : n ≤ 4294967296)
    (h : Reachable n allowed s) : InvR n s := by
  induction h with
  | init => exact InvR_init n
  | step t op hreach ht _ ih => exact InvR_step n hn _ t op ht (InvW_reachable hreach) ih

/-- Three steps of an idle thread calling `ck_rwlock_read_lock` while `writer`
is 0: load, increment, load. -/
theorem reader_enters (s : Sys) (t : Nat) (hidle : s.pc t = PC.idle)
    (hw : s.rw.writer = 0) :
    ((s.step t Op.read_lock).step t Op.read_lock).step t Op.read_lock =
      ⟨⟨0, (s.rw.n_readers + 1) % 4294967296⟩, Function.update s.pc t PC.r_held⟩ := by
  obtain ⟨⟨w, n⟩, pc⟩ := s
  simp only at hidle hw
  subst hw
  simp [Sys.step, Sys.next, hidle, Op.entry, tstep, ck_pr_load_uint_writer,
    ck_pr_inc_uint_n_readers]

/-- Two steps of an idle thread calling `ck_rwlock_write_lock` on a lock whose
two words are 0: exchange, load. -/
theorem writer_enters (s : Sys) (t : Nat) (hidle : s.pc t = PC.idle)
    (hw : s.rw.writer = 0) (hn : s.rw.n_readers = 0) :
    (s.step t Op.write_lock).step t Op.write_lock =
      ⟨⟨1, 0⟩, Function.update s.pc t PC.w_held⟩ := by
  obtain ⟨⟨w, n⟩, pc⟩ := s
  simp only at hidle hw hn
  subst hw hn
  simp [Sys.step, Sys.next, hidle, Op.entry, tstep, ck_pr_fas_uint_writer,
    ck_pr_load_uint_n_readers]

theorem readersIn_succ (k : Nat) :
    readersIn (k + 1) =
      ⟨⟨0, ((readersIn k).rw.n_readers + 1) % 4294967296⟩,
        Function.update (readersIn k).pc (k + 1) PC.r_held⟩ := by
  unfold readersIn
  congr 1
  · congr 1
    show (k + 1) % 4294967296 = (k % 4294967296 + 1) % 4294967296
    omega
  · funext t
    by_cases ht : t = k + 1
    · subst ht
      simp
    · rw [Function.update_noteq ht]
      by_cases h1 : 1 ≤ t <;> by_cases h2 : t ≤ k
      · have h3 : t ≤ k + 1 := by omega
        simp [h1, h2, h3]
      · have h3 : ¬ t ≤ k + 1 := by omega
        simp [h2, h3]
      · simp [h1]
      · simp [h1]

theorem readersIn_reachable (n : Nat) : ∀ k, k < n → Reachable n rwOps (readersIn k) := by
  intro k
  induction k with
  | zero =>
    intro _
    have h : readersIn 0 = Sys.init := by
      unfold readersIn Sys.init CK_RWLOCK_INITIALIZER
      congr 1
      funext t
      have h3 : ¬ (1 ≤ t ∧ t ≤ 0) := by omega
      exact if_neg h3
    rw [h]
    exact Reachable.init
  | succ k ih =>
    intro hk
    have hr := ih (by omega)
    have hidle : (readersIn k).pc (k + 1) = PC.idle := by
      have h3 : ¬ (1 ≤ k + 1 ∧ k + 1 ≤ k) := by omega
      simp [readersIn, h3]
    have hop : rwOps Op.read_lock := Or.inr (Or.inl rfl)
    rw [readersIn_succ, ← reader_enters (readersIn k) (k + 1) hidle rfl]
    exact Reachable.step _ _ (Reachable.step _ _ (Reachable.step _ _ hr hk hop) hk hop) hk hop

theorem crowded_eq :
    crowded = ((readersIn 4294967296).step 0 Op.write_lock).step 0 Op.write_lock := by
  rw [writer_enters (readersIn 4294967296) 0 (by simp [readersIn]) rfl (by simp [readersIn])]
  unfold crowded readersIn
  congr 1
  funext t
  by_cases ht : t = 0
  · subst ht
    simp
  · rw [Function.update_noteq ht]
    have h1 : 1 ≤ t := by omega
    simp [ht, h1]

/-! ## 7. The base lock, one call at a time -/

/-- Claim C3, counterexample: on the state `writer = 2`, `n_readers = 0` a
`ck_rwlock_write_trylock` returns false and leaves `writer = 1`: the failing
exchange has overwritten the 2. -/
theorem write_trylock_failure_overwrites_marker :
    (ck_rwlock_write_trylock ⟨2, 0⟩).1 = false ∧
    (ck_rwlock_write_trylock ⟨2, 0⟩).2 = ⟨1, 0⟩ ∧
    (ck_rwlock_write_trylock ⟨2, 0⟩).2 ≠ ⟨2, 0⟩ := by
  decide

/-- Claim C3, amended: for every lock state whose `writer` word is 0 or 1 (the
only values the base lock stores) and every value of `n_readers`, a
`ck_rwlock_write_trylock` that returns false leaves `writer` and `n_readers`
exactly as they were. -/
theorem write_trylock_failure_unchanged (rw : ck_rwlock)
    (hw : rw.writer = 0 ∨ rw.writer = 1)
    (hfail : (ck_rwlock_write_trylock rw).1 = false) :
    (ck_rwlock_write_trylock rw).2 = rw := by
  obtain ⟨w, n⟩ := rw
  simp only at hw
  rcases hw with rfl | rfl <;> by_cases hn : n = 0 <;>
    simp_all [ck_rwlock_write_trylock, ck_pr_fas_uint_writer, ck_pr_load_uint_n_readers,
      ck_rwlock_write_unlock, ck_pr_store_uint_writer]

/-- Witness for C3 amended: the free word with three readers registered. -/
theorem write_trylock_failure_unchanged_witness :
    ((0 : Nat) = 0 ∨ (0 : Nat) = 1) ∧ (ck_rwlock_write_trylock ⟨0, 3⟩).1 = false ∧
    (ck_rwlock_write_trylock ⟨0, 3⟩).2 = ⟨0, 3⟩ :=
  ⟨Or.inl rfl, by decide,
    write_trylock_failure_unchanged ⟨0, 3⟩ (Or.inl rfl) (by decide)⟩

theorem dec_inc_n_readers (rw : ck_rwlock) (h : rw.n_readers < 4294967296) :
    ck_pr_dec_uint_n_readers (ck_pr_inc_uint_n_readers rw) = rw := by
  obtain ⟨w, n⟩ := rw
  simp only [ck_pr_dec_uint_n_readers, ck_pr_inc_uint_n_readers] at *
  congr 1
  omega

/-- With no other thread acting every load of `writer` observes the value on
entry, and `ck_rwlock_read_lock_obs` is `ck_rwlock_read_lock`. -/
theorem read_lock_obs_own_value (fuel : Nat) :
    ∀ (rw : ck_rwlock) (k : Nat),
      ck_rwlock_read_lock fuel rw = ck_rwlock_read_lock_obs (fun _ => rw.writer) fuel k rw := by
  induction fuel with
  | zero => intro rw k; rfl
  | succ f ih =>
    intro rw k
    by_cases hw : rw.writer = 0
    · simp [ck_rwlock_read_lock, ck_rwlock_read_lock_obs, ck_rwlock_read_lock_pass,
        ck_pr_load_uint_writer, ck_pr_inc_uint_n_readers, hw]
    · simp only [ck_rwlock_read_lock, ck_rwlock_read_lock_obs, ck_pr_load_uint_writer,
        ne_eq, hw, not_false_eq_true, if_true]
      exact ih rw (k + 1)

/-- Claim C4: whatever the two loads of `writer` observe, a
`ck_rwlock_read_trylock` that returns false has either made no increment or
an increment followed by the matching decrement, so `n_readers` is as before,
and the call never writes `writer`; a pass of the `ck_rwlock_read_lock` loop
that does not break out likewise restores `n_readers`, and the loop goes on
from the state it started the pass with.  With the loads observing the value
of `writer` on entry these are `ck_rwlock_read_trylock` and
`ck_rwlock_read_lock` themselves. -/
theorem read_failure_no_orphaned_count (rw : ck_rwlock) (w1 w2 : Nat)
    (hwf : rw.n_readers < 4294967296) :
    ((ck_rwlock_read_trylock_obs rw w1 w2).1 = false →
      ((w1 ≠ 0 ∧ (ck_rwlock_read_trylock_obs rw w1 w2).2 = rw) ∨
       (w1 = 0 ∧ w2 ≠ 0 ∧ (ck_rwlock_read_trylock_obs rw w1 w2).2 =
          ck_pr_dec_uint_n_readers (ck_pr_inc_uint_n_readers rw))) ∧
      (ck_rwlock_read_trylock_obs rw w1 w2).2.n_readers = rw.n_readers) ∧
    (ck_rwlock_read_trylock_obs rw w1 w2).2.writer = rw.writer ∧
    ck_rwlock_read_trylock rw = ck_rwlock_read_trylock_obs rw rw.writer rw.writer ∧
    ((ck_rwlock_read_lock_pass rw w2).1 = false →
      (ck_rwlock_read_lock_pass rw w2).2 =
          ck_pr_dec_uint_n_readers (ck_pr_inc_uint_n_readers rw) ∧
      (ck_rwlock_read_lock_pass rw w2).2 = rw) ∧
    (ck_rwlock_read_lock_pass rw w2).2.writer = rw.writer ∧
    (∀ (obs : Nat → Nat) (fuel k : Nat), obs k = 0 → obs (k + 1) ≠ 0 →
      ck_rwlock_read_lock_obs obs (fuel + 1) k rw =
        ck_rwlock_read_lock_obs obs fuel (k + 2) rw) ∧
    (∀ fuel k : Nat,
      ck_rwlock_read_lock fuel rw = ck_rwlock_read_lock_obs (fun _ => rw.writer) fuel k rw) := by
  have hdi := dec_inc_n_readers rw hwf
  refine ⟨?_, ?_, ?_, ?_, ?_, ?_, fun fuel k => read_lock_obs_own_value fuel rw k⟩
  · intro hf
    by_cases h1 : w1 = 0 <;> by_cases h2 : w2 = 0 <;>
      simp_all [ck_rwlock_read_trylock_obs]
  · by_cases h1 : w1 = 0 <;> by_cases h2 : w2 = 0 <;>
      simp [ck_rwlock_read_trylock_obs, h1, h2, ck_pr_inc_uint_n_readers,
        ck_pr_dec_uint_n_readers]
  · by_cases h1 : rw.writer = 0 <;>
      simp [ck_rwlock_read_trylock, ck_rwlock_read_trylock_obs, ck_pr_load_uint_writer, h1,
        ck_pr_inc_uint_n_readers]
  · intro hf
    by_cases h2 : w2 = 0 <;> simp_all [ck_rwlock_read_lock_pass]
  · by_cases h2 : w2 = 0 <;>
      simp [ck_rwlock_read_lock_pass, h2, ck_pr_inc_uint_n_readers, ck_pr_dec_uint_n_readers]
  · intro obs fuel k h0 h1
    simp [ck_rwlock_read_lock_obs, ck_rwlock_read_lock_pass, h0, h1, hdi]

/-- Witness for C4: `n_readers` at its largest value, where the increment
wraps to 0 and the decrement wraps back. -/
theorem read_failure_no_orphaned_count_witness :
    (4294967295 : Nat) < 4294967296 ∧
    (ck_rwlock_read_trylock_obs ⟨0, 4294967295⟩ 0 1).1 = false ∧
    (ck_rwlock_read_trylock_obs ⟨0, 4294967295⟩ 0 1).2.n_readers = 4294967295 :=
  ⟨by decide, by decide,
    ((read_failure_no_orphaned_count ⟨0, 4294967295⟩ 0 1 (by decide)).1 (by decide)).2⟩

/-- Claim C5: with no other thread acting, `ck_rwlock_write_trylock` returns
true exactly when `writer = 0` and `n_readers = 0` on entry, and then leaves
`writer = 1` and `n_readers` unchanged, which is 0. -/
theorem write_trylock_result (rw : ck_rwlock) :
    ((ck_rwlock_write_trylock rw).1 = true ↔ rw.writer = 0 ∧ rw.n_readers = 0) ∧
    ((ck_rwlock_write_trylock rw).1 = true →
      (ck_rwlock_write_trylock rw).2.writer = 1 ∧
      (ck_rwlock_write_trylock rw).2.writer ≠ 0 ∧
      (ck_rwlock_write_trylock rw).2.n_readers = rw.n_readers ∧
      (ck_rwlock_write_trylock rw).2.n_readers = 0) := by
  obtain ⟨w, n⟩ := rw
  by_cases hw : w = 0 <;> by_cases hn : n = 0 <;>
    simp [ck_rwlock_write_trylock, ck_pr_fas_uint_writer, ck_pr_load_uint_n_readers,
      ck_rwlock_write_unlock, ck_pr_store_uint_writer, hw, hn]

/-- Instance of C5 on the free lock. -/
theorem write_trylock_result_witness :
    (ck_rwlock_write_trylock ⟨0, 0⟩).1 = true ∧ (ck_rwlock_write_trylock ⟨0, 0⟩).2.writer = 1 :=
  ⟨by decide, ((write_trylock_result ⟨0, 0⟩).2 (by decide)).1⟩

/-- Claim C6: with no other thread acting, `ck_rwlock_read_trylock` returns
true exactly when `writer = 0` on entry; it then has increased `n_readers` by
one modulo `2 ^ 32` and left `writer` alone; when `writer` is non-zero it
returns false. -/
theorem read_trylock_result (rw : ck_rwlock) :
    ((ck_rwlock_read_trylock rw).1 = true ↔ rw.writer = 0) ∧
    ((ck_rwlock_read_trylock rw).1 = true →
      (ck_rwlock_read_trylock rw).2.n_readers = (rw.n_readers + 1) % 4294967296 ∧
      (ck_rwlock_read_trylock rw).2.writer = rw.writer) ∧
    (rw.writer ≠ 0 → (ck_rwlock_read_trylock rw).1 = false) := by
  obtain ⟨w, n⟩ := rw
  by_cases hw : w = 0 <;>
    simp [ck_rwlock_read_trylock, ck_pr_load_uint_writer, ck_pr_inc_uint_n_readers, hw]

/-- Instance of C6 where the increment wraps. -/
theorem read_trylock_result_witness :
    (ck_rwlock_read_trylock ⟨0, 4294967295⟩).1 = true ∧
    (ck_rwlock_read_trylock ⟨0, 4294967295⟩).2.n_readers = (4294967295 + 1) % 4294967296 :=
  ⟨by decide, ((read_trylock_result ⟨0, 4294967295⟩).2.1 (by decide)).1⟩

/-- Claim C7: from a write-held state (`writer` non-zero, `n_readers = 0`)
`ck_rwlock_write_downgrade` first increments `n_readers` (the intermediate
state keeps `writer` and has `n_readers = 1`) and then clears `writer` (the
final state has `writer = 0`, `n_readers = 1`); neither state is the free
lock, and `ck_rwlock_write_trylock` returns false on both. -/
theorem write_downgrade_no_unheld_window (rw : ck_rwlock)
    (hw : rw.writer ≠ 0) (hn : rw.n_readers = 0) :
    ck_rwlock_write_downgrade_steps rw =
      [ck_pr_inc_uint_n_readers rw, ck_rwlock_write_downgrade rw] ∧
    ck_rwlock_write_downgrade rw = ck_rwlock_write_unlock (ck_pr_inc_uint_n_readers rw) ∧
    (ck_pr_inc_uint_n_readers rw).writer = rw.writer ∧
    (ck_pr_inc_uint_n_readers rw).n_readers = 1 ∧
    (ck_rwlock_write_downgrade rw).writer = 0 ∧
    (ck_rwlock_write_downgrade rw).n_readers = 1 ∧
    (∀ st ∈ ck_rwlock_write_downgrade_steps rw, ¬ (st.writer = 0 ∧ st.n_readers = 0)) ∧
    (∀ st ∈ ck_rwlock_write_downgrade_steps rw, (ck_rwlock_write_trylock st).1 = false) := by
  obtain ⟨w, n⟩ := rw
  simp only at hw hn
  subst hn
  simp [ck_rwlock_write_downgrade_steps, ck_rwlock_write_downgrade, ck_rwlock_write_unlock,
    ck_pr_store_uint_writer, ck_pr_inc_uint_n_readers, ck_rwlock_write_trylock,
    ck_pr_fas_uint_writer, ck_pr_load_uint_n_readers, hw]

/-- Witness for C7: the state a successful `ck_rwlock_write_trylock` leaves. -/
theorem write_downgrade_no_unheld_window_witness :
    (1 : Nat) ≠ 0 ∧ (0 : Nat) = 0 ∧
    (ck_rwlock_write_downgrade ⟨1, 0⟩).writer = 0 ∧
    (ck_rwlock_write_downgrade ⟨1, 0⟩).n_readers = 1 :=
  ⟨by decide, rfl,
    (write_downgrade_no_unheld_window ⟨1, 0⟩ (by decide) rfl).2.2.2.2.1,
    (write_downgrade_no_unheld_window ⟨1, 0⟩ (by decide) rfl).2.2.2.2.2.1⟩

/-! ## 8. The recursive writer lock -/

theorem recursive_acquire_some (tid fuel : Nat) (l l1 : ck_rwlock)
    (h : ck_rwlock_recursive_write_lock_acquire tid fuel l = some l1) :
    l.writer = 0 ∧ l1 = ⟨tid, l.n_readers⟩ := by
  induction fuel with
  | zero => simp [ck_rwlock_recursive_write_lock_acquire] at h
  | succ f ih =>
    by_cases hw : l.writer = 0
    · simp [ck_rwlock_recursive_write_lock_acquire, ck_pr_cas_uint_writer, hw] at h
      exact ⟨hw, h.symm⟩
    · simp [ck_rwlock_recursive_write_lock_acquire, ck_pr_cas_uint_writer, hw] at h
      exact ih h

theorem recursive_acquire_free (tid fuel : Nat) (l : ck_rwlock) (hw : l.writer = 0) :
    ck_rwlock_recursive_write_lock_acquire tid (fuel + 1) l = some ⟨tid, l.n_readers⟩ := by
  simp [ck_rwlock_recursive_write_lock_acquire, ck_pr_cas_uint_writer, hw]

theorem drain_some (fuel : Nat) (l l1 : ck_rwlock)
    (h : ck_rwlock_write_lock_drain fuel l = some l1) : l.n_readers = 0 ∧ l1 = l := by
  induction fuel with
  | zero => simp [ck_rwlock_write_lock_drain] at h
  | succ f ih =>
    by_cases hn : l.n_readers = 0
    · simp [ck_rwlock_write_lock_drain, ck_pr_load_uint_n_readers, hn] at h
      exact ⟨hn, h.symm⟩
    · simp [ck_rwlock_write_lock_drain, ck_pr_load_uint_n_readers, hn] at h
      exact ih h

theorem drain_free (fuel : Nat) (l : ck_rwlock) (hn : l.n_readers = 0) :
    ck_rwlock_write_lock_drain (fuel + 1) l = some l := by
  simp [ck_rwlock_write_lock_drain, ck_pr_load_uint_n_readers, hn]

/-- What a returning `ck_rwlock_recursive_write_lock` has done when `writer`
was not `tid` on entry. -/
theorem recursive_write_lock_some (fuel tid : Nat) (rw rw1 : ck_rwlock_recursive)
    (hne : rw.rw.writer ≠ tid)
    (h : ck_rwlock_recursive_write_lock fuel rw tid = some rw1) :
    rw.rw.writer = 0 ∧ rw.rw.n_readers = 0 ∧
    rw1 = ⟨⟨tid, 0⟩, (rw.wc + 1) % 4294967296⟩ := by
  simp only [ck_rwlock_recursive_write_lock, ck_pr_load_uint_writer, hne, if_false,
    Option.map_eq_some', Option.bind_eq_some] at h
  obtain ⟨l2, ⟨l1, h1, h2⟩, h3⟩ := h
  obtain ⟨hw, rfl⟩ := recursive_acquire_some tid fuel _ _ h1
  obtain ⟨hn, rfl⟩ := drain_some fuel _ _ h2
  simp only at hn
  refine ⟨hw, hn, ?_⟩
  rw [← h3, hn]
  rfl

/-- On the free lock `ck_rwlock_recursive_write_lock` returns as soon as it has
one unit of fuel for each loop. -/
theorem recursive_write_lock_free (fuel tid : Nat) (rw : ck_rwlock_recursive)
    (hne : rw.rw.writer ≠ tid) (hw : rw.rw.writer = 0) (hn : rw.rw.n_readers = 0) :
    ck_rwlock_recursive_write_lock (fuel + 1) rw tid =
      some ⟨⟨tid, 0⟩, (rw.wc + 1) % 4294967296⟩ := by
  simp only [ck_rwlock_recursive_write_lock, ck_pr_load_uint_writer, hne, if_false]
  rw [recursive_acquire_free tid fuel _ hw]
  simp only [Option.some_bind]
  rw [drain_free fuel _ (by simpa using hn)]
  simp [wc_incr, hn]

/-- A nested `ck_rwlock_recursive_write_lock` only increments `wc`. -/
theorem recursive_write_lock_nested (fuel tid wc n : Nat) :
    ck_rwlock_recursive_write_lock fuel ⟨⟨tid, n⟩, wc⟩ tid =
      some ⟨⟨tid, n⟩, (wc + 1) % 4294967296⟩ := by
  simp [ck_rwlock_recursive_write_lock, ck_pr_load_uint_writer, wc_incr]

/-- Claim C10: with no other thread acting and `tid` non-zero,
`ck_rwlock_recursive_write_trylock` returns true exactly when `writer = tid` on
entry or `writer = 0` and `n_readers = 0` on entry; when it returns false,
`writer`, `n_readers` and `wc` are as before. -/
theorem recursive_write_trylock_result (rw : ck_rwlock_recursive) (tid : Nat)
    (htid : tid ≠ 0) :
    ((ck_rwlock_recursive_write_trylock rw tid).1 = true ↔
      (rw.rw.writer = tid ∨ (rw.rw.writer = 0 ∧ rw.rw.n_readers = 0))) ∧
    ((ck_rwlock_recursive_write_trylock rw tid).1 = false →
      (ck_rwlock_recursive_write_trylock rw tid).2 = rw) := by
  obtain ⟨⟨w, n⟩, c⟩ := rw
  by_cases h1 : w = tid
  · simp [ck_rwlock_recursive_write_trylock, ck_pr_load_uint_writer, h1]
  · by_cases h2 : w = 0 <;> by_cases h3 : n = 0 <;>
      simp [ck_rwlock_recursive_write_trylock, ck_pr_load_uint_writer, ck_pr_cas_uint_writer,
        ck_pr_load_uint_n_readers, ck_pr_store_uint_writer, h1, h2, h3, Ne.symm htid]

/-- Witness for C10: the roll-back path (free word, two readers inside). -/
theorem recursive_write_trylock_result_witness :
    (7 : Nat) ≠ 0 ∧ (ck_rwlock_recursive_write_trylock ⟨⟨0, 2⟩, 0⟩ 7).1 = false ∧
    (ck_rwlock_recursive_write_trylock ⟨⟨0, 2⟩, 0⟩ 7).2 = ⟨⟨0, 2⟩, 0⟩ :=
  ⟨by decide, by decide,
    (recursive_write_trylock_result ⟨⟨0, 2⟩, 0⟩ 7 (by decide)).2 (by decide)⟩

/-- Claim C9, counterexample: on the state `writer = 0`, `n_readers = 0`,
`wc = 5` both `ck_rwlock_recursive_write_trylock` and
`ck_rwlock_recursive_write_lock` with `tid = 1` acquire the lock and leave
`wc = 6`, not 1: the code increments `wc`. -/
theorem recursive_fresh_acquisition_increments_wc :
    ck_rwlock_recursive_write_trylock ⟨⟨0, 0⟩, 5⟩ 1 = (true, ⟨⟨1, 0⟩, 6⟩) ∧
    ck_rwlock_recursive_write_lock 1 ⟨⟨0, 0⟩, 5⟩ 1 = some ⟨⟨1, 0⟩, 6⟩ ∧
    (6 : Nat) ≠ 1 := by
  decide

/-- Claim C9, amended: for every recursive-lock state in which `wc = 0`
whenever `writer = 0`, and every non-zero `tid` different from `writer` on
entry: whenever `ck_rwlock_recursive_write_lock(tid)` returns, and whenever
`ck_rwlock_recursive_write_trylock(tid)` returns true, the resulting state has
`writer = tid` and `wc = 1`; on the free lock both do return. -/
theorem recursive_fresh_acquisition (rw : ck_rwlock_recursive) (tid : Nat)
    (_htid : tid ≠ 0) (hne : rw.rw.writer ≠ tid) (hinv : rw.rw.writer = 0 → rw.wc = 0) :
    (∀ fuel rw1, ck_rwlock_recursive_write_lock fuel rw tid = some rw1 →
      rw1.rw.writer = tid ∧ rw1.wc = 1) ∧
    ((ck_rwlock_recursive_write_trylock rw tid).1 = true →
      (ck_rwlock_recursive_write_trylock rw tid).2.rw.writer = tid ∧
      (ck_rwlock_recursive_write_trylock rw tid).2.wc = 1) ∧
    (rw.rw.writer = 0 → rw.rw.n_readers = 0 → ∀ fuel,
      ck_rwlock_recursive_write_lock (fuel + 1) rw tid = some ⟨⟨tid, 0⟩, 1⟩ ∧
      ck_rwlock_recursive_write_trylock rw tid = (true, ⟨⟨tid, 0⟩, 1⟩)) := by
  refine ⟨?_, ?_, ?_⟩
  · intro fuel rw1 h
    obtain ⟨hw, _, rfl⟩ := recursive_write_lock_some fuel tid rw rw1 hne h
    simp [hinv hw]
  · obtain ⟨⟨w, n⟩, c⟩ := rw
    simp only at hne hinv
    by_cases h2 : w = 0 <;> by_cases h3 : n = 0 <;>
      simp_all [ck_rwlock_recursive_write_trylock, ck_pr_load_uint_writer,
        ck_pr_cas_uint_writer, ck_pr_load_uint_n_readers, ck_pr_store_uint_writer, wc_incr]
  · intro hw hn fuel
    refine ⟨?_, ?_⟩
    · rw [recursive_write_lock_free fuel tid rw hne hw hn, hinv hw]
    · obtain ⟨⟨w, n⟩, c⟩ := rw
      simp only at hne hinv hw hn
      subst hw hn
      simp_all [ck_rwlock_recursive_write_trylock, ck_pr_load_uint_writer,
        ck_pr_cas_uint_writer, ck_pr_load_uint_n_readers, wc_incr]

/-- Witness for C9 amended: the initialised recursive lock and `tid = 3`. -/
theorem recursive_fresh_acquisition_witness :
    (3 : Nat) ≠ 0 ∧ CK_RWLOCK_RECURSIVE_INITIALIZER.rw.writer ≠ 3 ∧
    ck_rwlock_recursive_write_lock 1 CK_RWLOCK_RECURSIVE_INITIALIZER 3 = some ⟨⟨3, 0⟩, 1⟩ ∧
    ck_rwlock_recursive_write_trylock CK_RWLOCK_RECURSIVE_INITIALIZER 3 = (true, ⟨⟨3, 0⟩, 1⟩) :=
  ⟨by decide, by decide,
    (recursive_fresh_acquisition CK_RWLOCK_RECURSIVE_INITIALIZER 3 (by decide) (by decide)
      (fun _ => rfl)).2.2 rfl rfl 0⟩

theorem write_lock_times_held (fuel tid r : Nat) :
    ∀ (n c : Nat), c < 4294967296 →
      write_lock_times fuel tid n ⟨⟨tid, r⟩, c⟩ = some ⟨⟨tid, r⟩, (c + n) % 4294967296⟩ := by
  intro n
  induction n with
  | zero =>
    intro c hc
    simp [write_lock_times, Nat.mod_eq_of_lt hc]
  | succ n ih =>
    intro c hc
    simp only [write_lock_times, recursive_write_lock_nested, Option.some_bind]
    rw [ih _ (Nat.mod_lt _ (by decide))]
    congr 2
    omega

/-- After `N >= 1` calls of `ck_rwlock_recursive_write_lock(tid)` on the
initialised lock, `writer = tid` and `wc = N mod 2 ^ 32`. -/
theorem write_lock_times_init (fuel tid N : Nat) (htid : tid ≠ 0) (hf : 0 < fuel)
    (hN : 0 < N) :
    write_lock_times fuel tid N CK_RWLOCK_RECURSIVE_INITIALIZER =
      some ⟨⟨tid, 0⟩, N % 4294967296⟩ := by
  obtain ⟨f, rfl⟩ := Nat.exists_eq_succ_of_ne_zero (Nat.pos_iff_ne_zero.mp hf)
  obtain ⟨n, rfl⟩ := Nat.exists_eq_succ_of_ne_zero (Nat.pos_iff_ne_zero.mp hN)
  have h0 : CK_RWLOCK_RECURSIVE_INITIALIZER.rw.writer ≠ tid := fun h => htid h.symm
  simp only [write_lock_times, Nat.succ_eq_add_one]
  rw [recursive_write_lock_free f tid _ h0 rfl rfl]
  simp only [Option.some_bind]
  rw [write_lock_times_held _ _ _ _ _ (Nat.mod_lt _ (by decide))]
  congr 2
  simp only [CK_RWLOCK_RECURSIVE_INITIALIZER]
  omega

theorem write_unlock_times_succ (k : Nat) :
    ∀ rw, write_unlock_times (k + 1) rw =
      ck_rwlock_recursive_write_unlock (write_unlock_times k rw) := by
  induction k with
  | zero => intro rw; rfl
  | succ k ih =>
    intro rw
    show write_unlock_times (k + 1) (ck_rwlock_recursive_write_unlock rw) = _
    rw [ih]
    rfl

theorem write_unlock_times_held (tid r N : Nat) (hN : N ≤ 4294967296) :
    ∀ k, k < N →
      write_unlock_times k ⟨⟨tid, r⟩, N % 4294967296⟩ =
        ⟨⟨tid, r⟩, (N - k) % 4294967296⟩ := by
  intro k
  induction k with
  | zero => intro _; rfl
  | succ k ih =>
    intro hk
    rw [write_unlock_times_succ, ih (by omega)]
    have h1 : (4294967295 + (N - k) % 4294967296) % 4294967296 = (N - (k + 1)) % 4294967296 := by
      omega
    have h2 : (N - (k + 1)) % 4294967296 ≠ 0 := by omega
    simp only [ck_rwlock_recursive_write_unlock, h1, h2, if_false]

theorem write_unlock_times_all (tid r N : Nat) (hN1 : 0 < N) (hN : N ≤ 4294967296) :
    write_unlock_times N ⟨⟨tid, r⟩, N % 4294967296⟩ = ⟨⟨0, r⟩, 0⟩ := by
  obtain ⟨n, rfl⟩ := Nat.exists_eq_succ_of_ne_zero (Nat.pos_iff_ne_zero.mp hN1)
  rw [write_unlock_times_succ, write_unlock_times_held tid r (n + 1) hN n (by omega)]
  have h1 : (4294967295 + (n + 1 - n) % 4294967296) % 4294967296 = 0 := by omega
  simp only [ck_rwlock_recursive_write_unlock, h1, if_true, ck_pr_store_uint_writer]

theorem recursive_write_trylock_other (rw : ck_rwlock_recursive) (other : Nat)
    (hw : rw.rw.writer ≠ 0) (hne : rw.rw.writer ≠ other) :
    (ck_rwlock_recursive_write_trylock rw other).1 = false := by
  simp [ck_rwlock_recursive_write_trylock, ck_pr_load_uint_writer, ck_pr_cas_uint_writer, hw, hne]

/-- Claim C8, counterexample: with `N = 2 ^ 32 + 1` nested acquisitions by
`tid = 1` the counter `wc` has wrapped to 1, so after `k = 1 < N` unlock the
lock is already released (`writer = 0`) and owner 2 acquires it. -/
theorem recursive_reentrancy_wraps :
    write_lock_times 1 1 4294967297 CK_RWLOCK_RECURSIVE_INITIALIZER = some ⟨⟨1, 0⟩, 1⟩ ∧
    (write_unlock_times 1 ⟨⟨1, 0⟩, 1⟩).rw.writer = 0 ∧
    (ck_rwlock_recursive_write_trylock (write_unlock_times 1 ⟨⟨1, 0⟩, 1⟩) 2).1 = true := by
  refine ⟨?_, by decide, by decide⟩
  rw [write_lock_times_init 1 1 4294967297 (by decide) (by decide) (by decide)]

/-- Claim C8, amended: from the initialised recursive lock, for every
non-zero `tid` and every `N` with `1 <= N <= 2 ^ 32`, the `N` calls of
`ck_rwlock_recursive_write_lock(tid)` return; after `k` further calls of
`ck_rwlock_recursive_write_unlock`, if `k < N` then `writer = tid` and
`ck_rwlock_recursive_write_trylock` with any other non-zero identifier returns
false, and if `k = N` then `writer = 0`. -/
theorem recursive_reentrancy (tid N k fuel : Nat) (htid : tid ≠ 0)
    (hN1 : 1 ≤ N) (hN : N ≤ 4294967296) (_hk : k ≤ N) :
    ∃ s, write_lock_times (fuel + 1) tid N CK_RWLOCK_RECURSIVE_INITIALIZER = some s ∧
      (k < N → (write_unlock_times k s).rw.writer = tid ∧
        ∀ other, other ≠ 0 → other ≠ tid →
          (ck_rwlock_recursive_write_trylock (write_unlock_times k s) other).1 = false) ∧
      (k = N → (write_unlock_times k s).rw.writer = 0) := by
  refine ⟨_, write_lock_times_init (fuel + 1) tid N htid (Nat.succ_pos _) hN1, ?_, ?_⟩
  · intro hk
    rw [write_unlock_times_held tid 0 N hN k hk]
    refine ⟨rfl, fun other _ hne => ?_⟩
    exact recursive_write_trylock_other _ other htid (fun h => hne h.symm)
  · intro hk
    subst hk
    rw [write_unlock_times_all tid 0 k hN1 hN]

/-- Witness for C8 amended: three nested acquisitions by owner 5, two unlocks. -/
theorem recursive_reentrancy_witness :
    (5 : Nat) ≠ 0 ∧ 1 ≤ 3 ∧ 3 ≤ 4294967296 ∧ 2 ≤ 3 ∧
    ∃ s, write_lock_times (0 + 1) 5 3 CK_RWLOCK_RECURSIVE_INITIALIZER = some s ∧
      (2 < 3 → (write_unlock_times 2 s).rw.writer = 5 ∧
        ∀ other, other ≠ 0 → other ≠ 5 →
          (ck_rwlock_recursive_write_trylock (write_unlock_times 2 s) other).1 = false) ∧
      (2 = 3 → (write_unlock_times 2 s).rw.writer = 0) :=
  ⟨by decide, by decide, by decide, by decide,
    recursive_reentrancy 5 3 2 0 (by decide) (by decide) (by decide) (by decide)⟩

/-! ## 9. The interleaving model: exclusion -/

/-- Claim C1: in every state reachable from the initialised lock by any number
`n` of threads that each run `ck_rwlock_write_lock` or
`ck_rwlock_write_trylock` followed by `ck_rwlock_write_unlock`, one atomic
operation per step, at most one thread is between a completed acquisition and
its `ck_rwlock_write_unlock`. -/
theorem writer_mutual_exclusion (n : Nat) (s : Sys) (h : Reachable n writerOps s)
    (t1 t2 : Nat) (h1 : s.pc t1 = PC.w_held) (h2 : s.pc t2 = PC.w_held) : t1 = t2 :=
  (InvW_reachable h).2 t1 t2 (by rw [h1]; rfl) (by rw [h2]; rfl)

/-- Witness for C1: thread 0 of two has completed `ck_rwlock_write_lock` (one
exchange, one load). -/
theorem writer_mutual_exclusion_witness :
    Reachable 2 writerOps ((Sys.init.step 0 Op.write_lock).step 0 Op.write_lock) ∧
    ((Sys.init.step 0 Op.write_lock).step 0 Op.write_lock).pc 0 = PC.w_held ∧
    (0 : Nat) = 0 :=
  ⟨Reachable.step 0 Op.write_lock
      (Reachable.step 0 Op.write_lock Reachable.init (by decide) (Or.inl rfl))
      (by decide) (Or.inl rfl),
    by decide,
    writer_mutual_exclusion 2 _
      (Reachable.step 0 Op.write_lock
        (Reachable.step 0 Op.write_lock Reachable.init (by decide) (Or.inl rfl))
        (by decide) (Or.inl rfl))
      0 0 (by decide) (by decide)⟩

/-- Claim C2, counterexample: with `2 ^ 32 + 1` threads, threads `1 .. 2 ^ 32`
each complete `ck_rwlock_read_lock`, which wraps `n_readers` to 0; thread 0
then completes `ck_rwlock_write_lock`. The reachable state `crowded` has
thread 0 inside the write lock and thread 1 inside the read lock. -/
theorem reader_count_wrap_admits_writer :
    Reachable 4294967297 rwOps crowded ∧
    crowded.pc 0 = PC.w_held ∧ crowded.pc 1 = PC.r_held := by
  refine ⟨?_, ?_, ?_⟩
  · rw [crowded_eq]
    have hop : rwOps Op.write_lock := Or.inl rfl
    exact Reachable.step _ _
      (Reachable.step _ _ (readersIn_reachable 4294967297 4294967296 (by omega))
        (by omega) hop) (by omega) hop
  · simp [crowded]
  · simp [crowded]

/-- Claim C2, amended: with at most `2 ^ 32` threads that run
`ck_rwlock_write_lock` ... `ck_rwlock_write_unlock` and `ck_rwlock_read_lock` /
`ck_rwlock_read_trylock` ... `ck_rwlock_read_unlock`, one atomic operation per
step from the initialised lock: in every reachable state, if a thread is
between a completed `write_lock` and its `write_unlock`, no thread is between
a completed `read_lock` (or successful `read_trylock`) and its `read_unlock`,
and a `read_trylock` at either of its loads of `writer` fails (the first load
returns false, the second goes to the decrement). -/
theorem reader_writer_exclusion (n : Nat) (s : Sys) (hn : n ≤ 4294967296)
    (h : Reachable n rwOps s) (w : Nat) (hw : s.pc w = PC.w_held) :
    (∀ r, s.pc r ≠ PC.r_held) ∧
    (tstep PC.rt_load s.rw).1 = PC.idle ∧
    (tstep PC.rt_recheck s.rw).1 = PC.rt_dec := by
  have hwr : s.rw.writer ≠ 0 := (InvW_reachable h).1 w (by rw [hw]; rfl)
  refine ⟨fun r => (InvR_reachable hn h).2.2 w r hw, ?_, ?_⟩
  · simp [tstep, ck_pr_load_uint_writer, hwr]
  · simp [tstep, ck_pr_load_uint_writer, hwr]

/-- Witness for C2 amended: of three threads, thread 0 has completed
`ck_rwlock_write_lock`. -/
theorem reader_writer_exclusion_witness :
    (3 : Nat) ≤ 4294967296 ∧
    Reachable 3 rwOps ((Sys.init.step 0 Op.write_lock).step 0 Op.write_lock) ∧
    ((Sys.init.step 0 Op.write_lock).step 0 Op.write_lock).pc 0 = PC.w_held ∧
    ((∀ r, ((Sys.init.step 0 Op.write_lock).step 0 Op.write_lock).pc r ≠ PC.r_held) ∧
      (tstep PC.rt_load ((Sys.init.step 0 Op.write_lock).step 0 Op.write_lock).rw).1 = PC.idle ∧
      (tstep PC.rt_recheck ((Sys.init.step 0 Op.write_lock).step 0 Op.write_lock).rw).1 =
        PC.rt_dec) :=
  ⟨by decide,
    Reachable.step 0 Op.write_lock
      (Reachable.step 0 Op.write_lock Reachable.init (by decide) (Or.inl rfl))
      (by decide) (Or.inl rfl),
    by decide,
    reader_writer_exclusion 3 _ (by decide)
      (Reachable.step 0 Op.write_lock
        (Reachable.step 0 Op.write_lock Reachable.init (by decide) (Or.inl rfl))
        (by decide) (Or.inl rfl))
      0 (by decide)⟩

/-! ## 10. The accelerated entry points -/

/-- Claim C11, counterexample: on the free lock, when the transaction fails to
begin, `ck_rwlock_write_trylock_rtm` returns false and leaves `writer = 0`,
whereas `ck_rwlock_write_trylock` returns true and leaves `writer = 1`. -/
theorem write_trylock_rtm_does_not_fall_back :
    ck_rwlock_write_trylock_rtm ck_pr_rtm_status.failed ⟨0, 0⟩ = (false, ⟨⟨0, 0⟩, false⟩) ∧
    ck_rwlock_write_trylock ⟨0, 0⟩ = (true, ⟨1, 0⟩) ∧
    (ck_rwlock_write_trylock_rtm ck_pr_rtm_status.failed ⟨0, 0⟩).1 ≠
      (ck_rwlock_write_trylock ⟨0, 0⟩).1 ∧
    (ck_rwlock_write_trylock_rtm ck_pr_rtm_status.failed ⟨0, 0⟩).2.rw ≠
      (ck_rwlock_write_trylock ⟨0, 0⟩).2 := by
  decide

/-- Claim C11, amended: for every lock state, when the hardware transaction
fails to begin, `ck_rwlock_write_trylock_rtm` returns false, leaves `writer`
and `n_readers` unchanged and opens no transaction; it does not run
`ck_rwlock_write_trylock`, and it agrees with it (same boolean, same words)
exactly on the states where `writer = 1`, or `writer = 0` and `n_readers` is
non-zero. -/
theorem write_trylock_rtm_failed_begin (rw : ck_rwlock) :
    ck_rwlock_write_trylock_rtm ck_pr_rtm_status.failed rw = (false, ⟨rw, false⟩) ∧
    (((ck_rwlock_write_trylock_rtm ck_pr_rtm_status.failed rw).1 =
        (ck_rwlock_write_trylock rw).1 ∧
      (ck_rwlock_write_trylock_rtm ck_pr_rtm_status.failed rw).2.rw =
        (ck_rwlock_write_trylock rw).2) ↔
      (rw.writer = 1 ∨ (rw.writer = 0 ∧ rw.n_readers ≠ 0))) := by
  obtain ⟨w, n⟩ := rw
  refine ⟨by simp [ck_rwlock_write_trylock_rtm], ?_⟩
  by_cases hw : w = 0 <;> by_cases hn : n = 0 <;>
    simp [ck_rwlock_write_trylock_rtm, ck_rwlock_write_trylock, ck_pr_fas_uint_writer,
      ck_pr_load_uint_n_readers, ck_rwlock_write_unlock, ck_pr_store_uint_writer, hw, hn]

/-- Claim C12: when the transaction begins and `writer = 0`, `n_readers = 0`
are observed, `ck_rwlock_write_lock_rtm` returns with both words unchanged and
the transaction open; when the transaction fails to begin, or is aborted
because `writer` or `n_readers` is non-zero, its outcome for every amount of
fuel (not returning included) is that of `ck_rwlock_write_lock` on the same
state, with no transaction open. -/
theorem write_lock_rtm_paths (rw : ck_rwlock) (status : ck_pr_rtm_status) (fuel : Nat) :
    (status = ck_pr_rtm_status.started → rw.writer = 0 → rw.n_readers = 0 →
      ck_rwlock_write_lock_rtm fuel status rw = some ⟨rw, true⟩) ∧
    ((status ≠ ck_pr_rtm_status.started ∨ rw.writer ≠ 0 ∨ rw.n_readers ≠ 0) →
      ck_rwlock_write_lock_rtm fuel status rw =
        (ck_rwlock_write_lock fuel rw).map (fun l => ⟨l, false⟩) ∧
      (ck_rwlock_write_lock_rtm fuel status rw).map (fun v => v.rw) =
        ck_rwlock_write_lock fuel rw) := by
  have hmap : ((ck_rwlock_write_lock fuel rw).map (fun l => (⟨l, false⟩ : rtm_view))).map
      (fun v => v.rw) = ck_rwlock_write_lock fuel rw := by
    cases ck_rwlock_write_lock fuel rw <;> rfl
  refine ⟨?_, ?_⟩
  · intro hs hw hn
    simp [ck_rwlock_write_lock_rtm, hs, ck_pr_load_uint_writer, ck_pr_load_uint_n_readers,
      hw, hn]
  · intro h
    have heq : ck_rwlock_write_lock_rtm fuel status rw =
        (ck_rwlock_write_lock fuel rw).map (fun l => ⟨l, false⟩) := by
      by_cases hs : status = ck_pr_rtm_status.started
      · have hor : rw.writer ≠ 0 ∨ rw.n_readers ≠ 0 := by
          rcases h with h | h
          · exact (h hs).elim
          · exact h
        by_cases hw : rw.writer = 0
        · have hn : rw.n_readers ≠ 0 := by
            rcases hor with h | h
            · exact (h hw).elim
            · exact h
          simp [ck_rwlock_write_lock_rtm, hs, ck_pr_load_uint_writer,
            ck_pr_load_uint_n_readers, hw, hn, ck_pr_rtm_abort]
        · simp [ck_rwlock_write_lock_rtm, hs, ck_pr_load_uint_writer,
            ck_pr_load_uint_n_readers, hw, ck_pr_rtm_abort]
      · simp [ck_rwlock_write_lock_rtm, hs]
    exact ⟨heq, by rw [heq, hmap]⟩

/-- Instance of C12: the speculative path on the free lock, and the fall-back
on the free lock when the transaction does not begin. -/
theorem write_lock_rtm_paths_witness :
    ck_rwlock_write_lock_rtm 1 ck_pr_rtm_status.started ⟨0, 0⟩ = some ⟨⟨0, 0⟩, true⟩ ∧
    (ck_rwlock_write_lock_rtm 1 ck_pr_rtm_status.failed ⟨0, 0⟩).map (fun v => v.rw) =
      ck_rwlock_write_lock 1 ⟨0, 0⟩ :=
  ⟨(write_lock_rtm_paths ⟨0, 0⟩ ck_pr_rtm_status.started 1).1 rfl rfl rfl,
    ((write_lock_rtm_paths ⟨0, 0⟩ ck_pr_rtm_status.failed 1).2 (Or.inl (by decide))).2⟩

/-- Claim C13, counterexample: with `writer = 0` and one base-path reader
registered (`n_readers = 1`), a `ck_rwlock_read_lock_rtm` (or
`ck_rwlock_read_trylock_rtm`) whose transaction starts leaves the words alone,
but the matching `ck_rwlock_read_unlock_rtm` observes `n_readers` non-zero and
decrements it to 0 without committing. -/
theorem read_unlock_rtm_decrements_registered_count :
    ck_rwlock_read_lock_rtm 1 ck_pr_rtm_status.started ⟨0, 1⟩ = some ⟨⟨0, 1⟩, true⟩ ∧
    ck_rwlock_read_trylock_rtm ck_pr_rtm_status.started ⟨0, 1⟩ = (true, ⟨⟨0, 1⟩, true⟩) ∧
    ck_rwlock_read_unlock_rtm ⟨⟨0, 1⟩, true⟩ = ⟨⟨0, 0⟩, true⟩ ∧
    (ck_rwlock_read_unlock_rtm ⟨⟨0, 1⟩, true⟩).rw ≠ ⟨0, 1⟩ := by
  decide

/-- Claim C13, amended: for every lock state with `writer = 0` and
`n_readers = 0`, a `ck_rwlock_read_lock_rtm` or `ck_rwlock_read_trylock_rtm`
whose transaction starts returns with both words unchanged and the
transaction open, and the matching `ck_rwlock_read_unlock_rtm` commits the
transaction and leaves both words as they were before the pair.  When
`n_readers` is non-zero the unlock takes the other branch: it is
`ck_rwlock_read_unlock` and commits nothing. -/
theorem speculative_read_pair (rw : ck_rwlock) (hw : rw.writer = 0) (fuel : Nat) :
    ck_rwlock_read_lock_rtm fuel ck_pr_rtm_status.started rw = some ⟨rw, true⟩ ∧
    ck_rwlock_read_trylock_rtm ck_pr_rtm_status.started rw = (true, ⟨rw, true⟩) ∧
    (rw.n_readers = 0 →
      ck_rwlock_read_unlock_rtm ⟨rw, true⟩ = ck_pr_rtm_end ⟨rw, true⟩ ∧
      ck_rwlock_read_unlock_rtm ⟨rw, true⟩ = ⟨rw, false⟩) ∧
    (rw.n_readers ≠ 0 →
      ck_rwlock_read_unlock_rtm ⟨rw, true⟩ = ⟨ck_rwlock_read_unlock rw, true⟩) := by
  refine ⟨?_, ?_, ?_, ?_⟩
  · simp [ck_rwlock_read_lock_rtm, ck_pr_load_uint_writer, hw]
  · simp [ck_rwlock_read_trylock_rtm, ck_pr_load_uint_writer, hw]
  · intro hn
    simp [ck_rwlock_read_unlock_rtm, ck_pr_load_uint_n_readers, hn, ck_pr_rtm_end]
  · intro hn
    simp [ck_rwlock_read_unlock_rtm, ck_pr_load_uint_n_readers, hn]

/-- Witness for C13 amended: the free lock. -/
theorem speculative_read_pair_witness :
    (0 : Nat) = 0 ∧
    ck_rwlock_read_lock_rtm 1 ck_pr_rtm_status.started ⟨0, 0⟩ = some ⟨⟨0, 0⟩, true⟩ ∧
    ck_rwlock_read_unlock_rtm ⟨⟨0, 0⟩, true⟩ = ⟨⟨0, 0⟩, false⟩ :=
  ⟨rfl, (speculative_read_pair ⟨0, 0⟩ rfl 1).1,
    ((speculative_read_pair ⟨0, 0⟩ rfl 1).2.2.1 rfl).2⟩

/-- Claim C14: `ck_rwlock_write_unlock_rtm` commits the transaction, writing
neither word, exactly when it observes `writer = 0`; otherwise it performs
`ck_rwlock_write_unlock` and commits nothing; either way `writer = 0` and
`n_readers` is unchanged afterwards; and which branch is taken depends on the
lock words only (on `writer`), not on the transaction flag of the caller. -/
theorem write_unlock_rtm_by_state (s : rtm_view) :
    (ck_rwlock_write_unlock_rtm s = ck_pr_rtm_end s ↔ s.rw.writer = 0) ∧
    (s.rw.writer = 0 → (ck_rwlock_write_unlock_rtm s).rw = s.rw) ∧
    (s.rw.writer ≠ 0 →
      ck_rwlock_write_unlock_rtm s = ⟨ck_rwlock_write_unlock s.rw, s.txn⟩) ∧
    (ck_rwlock_write_unlock_rtm s).rw.writer = 0 ∧
    (ck_rwlock_write_unlock_rtm s).rw.n_readers = s.rw.n_readers ∧
    (∀ s2 : rtm_view, s2.rw.writer = s.rw.writer →
      ((ck_rwlock_write_unlock_rtm s2 = ck_pr_rtm_end s2) ↔
        (ck_rwlock_write_unlock_rtm s = ck_pr_rtm_end s))) := by
  have key : ∀ v : rtm_view,
      (ck_rwlock_write_unlock_rtm v = ck_pr_rtm_end v ↔ v.rw.writer = 0) := by
    intro v
    obtain ⟨⟨w, n⟩, b⟩ := v
    by_cases hw : w = 0
    · simp [ck_rwlock_write_unlock_rtm, ck_pr_load_uint_writer, hw]
    · simp only [ck_rwlock_write_unlock_rtm, ck_pr_load_uint_writer, hw, if_false,
        ck_pr_rtm_end, ck_rwlock_write_unlock, ck_pr_store_uint_writer, iff_false]
      intro h
      have := congrArg (fun v => v.rw.writer) h
      exact hw this.symm
  refine ⟨key s, ?_, ?_, ?_, ?_, ?_⟩
  · intro hw
    simp [ck_rwlock_write_unlock_rtm, ck_pr_load_uint_writer, hw, ck_pr_rtm_end]
  · intro hw
    simp [ck_rwlock_write_unlock_rtm, ck_pr_load_uint_writer, hw]
  · by_cases hw : s.rw.writer = 0 <;>
      simp [ck_rwlock_write_unlock_rtm, ck_pr_load_uint_writer, hw, ck_pr_rtm_end,
        ck_rwlock_write_unlock, ck_pr_store_uint_writer]
  · by_cases hw : s.rw.writer = 0 <;>
      simp [ck_rwlock_write_unlock_rtm, ck_pr_load_uint_writer, hw, ck_pr_rtm_end,
        ck_rwlock_write_unlock, ck_pr_store_uint_writer]
  · intro s2 h2
    rw [key s2, key s, h2]

/-- Instance of C14: a speculative hold on the free lock is committed; a real
hold is released by the store. -/
theorem write_unlock_rtm_by_state_witness :
    (ck_rwlock_write_unlock_rtm ⟨⟨0, 0⟩, true⟩).rw = ⟨0, 0⟩ ∧
    ck_rwlock_write_unlock_rtm ⟨⟨1, 0⟩, false⟩ = ⟨ck_rwlock_write_unlock ⟨1, 0⟩, false⟩ :=
  ⟨(write_unlock_rtm_by_state ⟨⟨0, 0⟩, true⟩).2.1 rfl,
    (write_unlock_rtm_by_state ⟨⟨1, 0⟩, false⟩).2.2.1 (by decide)⟩

/-! ## 11. Drain, termination and the writer word -/

theorem acquire_free (fuel : Nat) (rw : ck_rwlock) (hw : rw.writer = 0) :
    ck_rwlock_write_lock_acquire (fuel + 1) rw = some ⟨1, rw.n_readers⟩ := by
  simp [ck_rwlock_write_lock_acquire, ck_pr_fas_uint_writer, hw]

theorem acquire_spins (fuel : Nat) :
    ∀ rw : ck_rwlock, rw.writer ≠ 0 → ck_rwlock_write_lock_acquire fuel rw = none := by
  induction fuel with
  | zero => intro rw _; rfl
  | succ f ih =>
    intro rw hw
    simp only [ck_rwlock_write_lock_acquire, ck_pr_fas_uint_writer, ne_eq, hw,
      not_false_eq_true, if_true]
    exact ih _ (by simp)

theorem drain_spins (fuel : Nat) (rw : ck_rwlock) (hn : rw.n_readers ≠ 0) :
    ck_rwlock_write_lock_drain fuel rw = none := by
  induction fuel with
  | zero => rfl
  | succ f ih =>
    simp only [ck_rwlock_write_lock_drain, ck_pr_load_uint_n_readers, ne_eq, hn,
      not_false_eq_true, if_true]
    exact ih

/-- A returning `ck_rwlock_write_lock`, with no other thread acting, started
on the free lock and ends in `writer = 1`, `n_readers = 0`. -/
theorem write_lock_some (fuel : Nat) (rw rw1 : ck_rwlock)
    (h : ck_rwlock_write_lock fuel rw = some rw1) :
    rw.writer = 0 ∧ rw.n_readers = 0 ∧ rw1 = ⟨1, 0⟩ := by
  by_cases hw : rw.writer = 0
  · cases fuel with
    | zero => simp [ck_rwlock_write_lock, ck_rwlock_write_lock_acquire] at h
    | succ f =>
      rw [ck_rwlock_write_lock, acquire_free f rw hw, Option.some_bind] at h
      obtain ⟨hn, rfl⟩ := drain_some _ _ _ h
      simp only at hn
      exact ⟨hw, hn, by rw [hn]⟩
  · rw [ck_rwlock_write_lock, acquire_spins fuel rw hw] at h
    simp at h

theorem write_lock_free (fuel : Nat) (rw : ck_rwlock) (hw : rw.writer = 0)
    (hn : rw.n_readers = 0) : ck_rwlock_write_lock (fuel + 1) rw = some ⟨1, 0⟩ := by
  rw [ck_rwlock_write_lock, acquire_free fuel rw hw, Option.some_bind, hn]
  exact drain_free fuel _ rfl

theorem write_lock_spins (fuel : Nat) (rw : ck_rwlock)
    (h : rw.writer ≠ 0 ∨ rw.n_readers ≠ 0) : ck_rwlock_write_lock fuel rw = none := by
  cases hres : ck_rwlock_write_lock fuel rw with
  | none => rfl
  | some rw1 =>
    obtain ⟨hw, hn, _⟩ := write_lock_some fuel rw rw1 hres
    rcases h with h | h
    · exact (h hw).elim
    · exact (h hn).elim

/-- A returning `ck_rwlock_read_lock`, with no other thread acting, found
`writer = 0` and has incremented `n_readers` once. -/
theorem read_lock_some (fuel : Nat) (rw rw1 : ck_rwlock)
    (h : ck_rwlock_read_lock fuel rw = some rw1) :
    rw.writer = 0 ∧ rw1 = ck_pr_inc_uint_n_readers rw := by
  induction fuel with
  | zero => simp [ck_rwlock_read_lock] at h
  | succ f ih =>
    by_cases hw : rw.writer = 0
    · simp [ck_rwlock_read_lock, ck_pr_load_uint_writer, ck_pr_inc_uint_n_readers, hw] at h
      exact ⟨hw, by rw [← h]; simp [ck_pr_inc_uint_n_readers, hw]⟩
    · simp only [ck_rwlock_read_lock, ck_pr_load_uint_writer, ne_eq, hw, not_false_eq_true,
        if_true] at h
      exact ih h

theorem read_lock_free (fuel : Nat) (rw : ck_rwlock) (hw : rw.writer = 0) :
    ck_rwlock_read_lock (fuel + 1) rw = some (ck_pr_inc_uint_n_readers rw) := by
  simp [ck_rwlock_read_lock, ck_pr_load_uint_writer, ck_pr_inc_uint_n_readers, hw]

theorem read_lock_times_free (fuel : Nat) :
    ∀ (m n : Nat), n < 4294967296 →
      read_lock_times (fuel + 1) m ⟨0, n⟩ = some ⟨0, (n + m) % 4294967296⟩ := by
  intro m
  induction m with
  | zero =>
    intro n hn
    simp [read_lock_times, Nat.mod_eq_of_lt hn]
  | succ m ih =>
    intro n hn
    simp only [read_lock_times, read_lock_free fuel ⟨0, n⟩ rfl, Option.some_bind,
      ck_pr_inc_uint_n_readers]
    rw [ih _ (Nat.mod_lt _ (by decide))]
    congr 2
    omega

theorem read_unlock_times_counts (w : Nat) :
    ∀ (j n : Nat), j ≤ n → n < 4294967296 →
      read_unlock_times j ⟨w, n⟩ = ⟨w, n - j⟩ := by
  intro j
  induction j with
  | zero => intro n _ _; rfl
  | succ j ih =>
    intro n hj hn
    have h1 : (4294967295 + n) % 4294967296 = n - 1 := by omega
    simp only [read_unlock_times, ck_rwlock_read_unlock, ck_pr_dec_uint_n_readers, h1]
    rw [ih (n - 1) (by omega) (by omega)]
    congr 1
    omega

/-- Claim C15: from the initialised lock, for `1 <= m < 2 ^ 32` and `j <= m`,
the `m` calls of `ck_rwlock_read_lock` return and, after `j` calls of
`ck_rwlock_read_unlock`, the state is `writer = 0`, `n_readers = m - j`;
`ck_rwlock_write_trylock` returns true there exactly when `j = m`; a
`ck_rwlock_write_lock` started there takes the flag (state `1, m - j`), its
drain loop never exits while fewer than the remaining `m - j` unlocks have
happened, and exits, on `1, 0`, once all of them have. -/
theorem reader_drain (m j fuel : Nat) (hm1 : 1 ≤ m) (hm : m < 4294967296) (hj : j ≤ m) :
    ∃ s, read_lock_times (fuel + 1) m CK_RWLOCK_INITIALIZER = some s ∧
      read_unlock_times j s = ⟨0, m - j⟩ ∧
      ((ck_rwlock_write_trylock (read_unlock_times j s)).1 = true ↔ j = m) ∧
      ck_rwlock_write_lock_acquire (fuel + 1) (read_unlock_times j s) = some ⟨1, m - j⟩ ∧
      (∀ i, i < m - j → ∀ f,
        ck_rwlock_write_lock_drain f (read_unlock_times i ⟨1, m - j⟩) = none) ∧
      ck_rwlock_write_lock_drain (fuel + 1) (read_unlock_times (m - j) ⟨1, m - j⟩) =
        some ⟨1, 0⟩ ∧
      (j < m → ∀ f, ck_rwlock_write_lock f (read_unlock_times j s) = none) ∧
      (j = m → ck_rwlock_write_lock (fuel + 1) (read_unlock_times j s) = some ⟨1, 0⟩) := by
  have hlock := read_lock_times_free fuel m 0 (by decide)
  rw [Nat.zero_add, Nat.mod_eq_of_lt hm] at hlock
  have hunl := read_unlock_times_counts 0 j m hj hm
  refine ⟨⟨0, m⟩, hlock, hunl, ?_, ?_, ?_, ?_, ?_, ?_⟩
  · rw [hunl]
    by_cases h : m - j = 0
    · have : j = m := by omega
      simp [ck_rwlock_write_trylock, ck_pr_fas_uint_writer, ck_pr_load_uint_n_readers, h, this]
    · have : j ≠ m := by omega
      simp [ck_rwlock_write_trylock, ck_pr_fas_uint_writer, ck_pr_load_uint_n_readers, h, this]
  · rw [hunl]
    exact acquire_free fuel ⟨0, m - j⟩ rfl
  · intro i hi f
    rw [read_unlock_times_counts 1 i (m - j) (by omega) (by omega)]
    exact drain_spins f _ (by simp only; omega)
  · rw [read_unlock_times_counts 1 (m - j) (m - j) (Nat.le_refl _) (by omega), Nat.sub_self]
    exact drain_free fuel _ rfl
  · intro hlt f
    rw [hunl]
    exact write_lock_spins f _ (Or.inr (by simp only; omega))
  · intro heq
    rw [hunl]
    exact write_lock_free fuel _ rfl (by simp only; omega)

/-- Witness for C15: the scenario of the specification, ten readers, of which
four have left. -/
theorem reader_drain_witness :
    1 ≤ 10 ∧ 10 < 4294967296 ∧ 4 ≤ 10 ∧
    ∃ s, read_lock_times (0 + 1) 10 CK_RWLOCK_INITIALIZER = some s ∧
      read_unlock_times 4 s = ⟨0, 10 - 4⟩ ∧
      ((ck_rwlock_write_trylock (read_unlock_times 4 s)).1 = true ↔ 4 = 10) ∧
      ck_rwlock_write_lock_acquire (0 + 1) (read_unlock_times 4 s) = some ⟨1, 10 - 4⟩ ∧
      (∀ i, i < 10 - 4 → ∀ f,
        ck_rwlock_write_lock_drain f (read_unlock_times i ⟨1, 10 - 4⟩) = none) ∧
      ck_rwlock_write_lock_drain (0 + 1) (read_unlock_times (10 - 4) ⟨1, 10 - 4⟩) =
        some ⟨1, 0⟩ ∧
      (4 < 10 → ∀ f, ck_rwlock_write_lock f (read_unlock_times 4 s) = none) ∧
      (4 = 10 → ck_rwlock_write_lock (0 + 1) (read_unlock_times 4 s) = some ⟨1, 0⟩) :=
  ⟨by decide, by decide, by decide, reader_drain 10 4 0 (by decide) (by decide) (by decide)⟩

/-- Claim C16: whatever the lock words are when the step is taken, the
exchange of `ck_rwlock_write_lock` leaves the first loop exactly when it
observes `writer = 0`, and it leaves `writer` non-zero; the load of the second
loop lets the call return exactly when it observes `n_readers = 0`; the second
loop is entered only through that exchange, and in every reachable state a
thread that has returned owns a non-zero `writer`.  With no other thread
acting, the call returns only from the free lock, there after one exchange and
one load (fuel 1) in the state `writer = 1`, `n_readers = 0` that a successful
`ck_rwlock_write_trylock` leaves, and on any other state it never returns. -/
theorem write_lock_returns_owned_and_drained (rw : ck_rwlock) :
    ((tstep PC.wl_fas rw).1 = PC.wl_drain ↔ rw.writer = 0) ∧
    ((tstep PC.wl_fas rw).1 ≠ PC.wl_drain → (tstep PC.wl_fas rw).1 = PC.wl_fas) ∧
    (tstep PC.wl_fas rw).2.writer ≠ 0 ∧
    ((tstep PC.wl_drain rw).1 = PC.w_held ↔ rw.n_readers = 0) ∧
    ((tstep PC.wl_drain rw).1 ≠ PC.w_held → (tstep PC.wl_drain rw).1 = PC.wl_drain) ∧
    (∀ p, (tstep p rw).1 = PC.wl_drain → p = PC.wl_fas ∨ p = PC.wl_drain) ∧
    (∀ p, (tstep p rw).1 = PC.w_held → p = PC.wl_drain ∨ p = PC.wt_check) ∧
    (∀ (n : Nat) (allowed : Op → Prop) (s : Sys) (t : Nat),
      Reachable n allowed s → s.pc t = PC.w_held → s.rw.writer ≠ 0) ∧
    (∀ fuel rw1, ck_rwlock_write_lock fuel rw = some rw1 →
      rw.writer = 0 ∧ rw.n_readers = 0 ∧ rw1 = ⟨1, 0⟩) ∧
    (rw.writer = 0 → rw.n_readers = 0 →
      ck_rwlock_write_lock 1 rw = some ⟨1, 0⟩ ∧
      (∀ fuel, ck_rwlock_write_lock (fuel + 1) rw = some ⟨1, 0⟩) ∧
      ck_rwlock_write_trylock rw = (true, ⟨1, 0⟩)) ∧
    ((rw.writer ≠ 0 ∨ rw.n_readers ≠ 0) → ∀ fuel, ck_rwlock_write_lock fuel rw = none) := by
  refine ⟨?_, ?_, ?_, ?_, ?_, ?_, ?_, ?_, ?_, ?_, ?_⟩
  · by_cases hw : rw.writer = 0 <;> simp [tstep, ck_pr_fas_uint_writer, hw]
  · by_cases hw : rw.writer = 0 <;> simp [tstep, ck_pr_fas_uint_writer, hw]
  · simp [tstep, ck_pr_fas_uint_writer]
  · by_cases hn : rw.n_readers = 0 <;> simp [tstep, ck_pr_load_uint_n_readers, hn]
  · by_cases hn : rw.n_readers = 0 <;> simp [tstep, ck_pr_load_uint_n_readers, hn]
  · intro p
    cases p <;> by_cases hw : rw.writer = 0 <;> by_cases hn : rw.n_readers = 0 <;>
      simp [tstep, ck_pr_fas_uint_writer, ck_pr_load_uint_n_readers, ck_pr_load_uint_writer,
        hw, hn]
  · intro p
    cases p <;> by_cases hw : rw.writer = 0 <;> by_cases hn : rw.n_readers = 0 <;>
      simp [tstep, ck_pr_fas_uint_writer, ck_pr_load_uint_n_readers, ck_pr_load_uint_writer,
        hw, hn]
  · intro n allowed s t hreach hpc
    exact (InvW_reachable hreach).1 t (by rw [hpc]; rfl)
  · intro fuel rw1 h
    exact write_lock_some fuel rw rw1 h
  · intro hw hn
    refine ⟨write_lock_free 0 rw hw hn, fun fuel => write_lock_free fuel rw hw hn, ?_⟩
    obtain ⟨w, k⟩ := rw
    simp only at hw hn
    subst hw hn
    rfl
  · intro h fuel
    exact write_lock_spins fuel rw h

/-- Instance of C16 on the free lock. -/
theorem write_lock_returns_owned_and_drained_witness :
    ck_rwlock_write_lock 1 ⟨0, 0⟩ = some ⟨1, 0⟩ ∧
    (∀ fuel, ck_rwlock_write_lock (fuel + 1) ⟨0, 0⟩ = some ⟨1, 0⟩) ∧
    ck_rwlock_write_trylock ⟨0, 0⟩ = (true, ⟨1, 0⟩) :=
  (write_lock_returns_owned_and_drained ⟨0, 0⟩).2.2.2.2.2.2.2.2.2.1 rfl rfl

theorem tstep_flag (p : PC) (rw : ck_rwlock) (h : writer_is_flag rw) :
    writer_is_flag (tstep p rw).2 := by
  unfold writer_is_flag at *
  cases p <;> by_cases hw : rw.writer = 0 <;> by_cases hn : rw.n_readers = 0 <;>
    simp_all [tstep, ck_pr_fas_uint_writer, ck_pr_load_uint_n_readers,
      ck_pr_load_uint_writer, ck_rwlock_write_unlock, ck_pr_store_uint_writer,
      ck_pr_inc_uint_n_readers, ck_pr_dec_uint_n_readers, ck_rwlock_read_unlock]

theorem atomic_flag (a : BaseAtomic) (rw : ck_rwlock) (h : writer_is_flag rw) :
    writer_is_flag (a.apply rw) := by
  unfold writer_is_flag at *
  cases a <;>
    simp_all [BaseAtomic.apply, ck_pr_fas_uint_writer, ck_pr_store_uint_writer,
      ck_pr_inc_uint_n_readers, ck_pr_dec_uint_n_readers]

theorem reachable_flag {n : Nat} {allowed : Op → Prop} {s : Sys}
    (h : Reachable n allowed s) : writer_is_flag s.rw := by
  induction h with
  | init => exact Or.inl rfl
  | step t op _ _ _ ih => exact tstep_flag _ _ ih

theorem base_reachable_flag {rw : ck_rwlock} (h : BaseReachable rw) : writer_is_flag rw := by
  induction h with
  | init => exact Or.inl rfl
  | step a _ ih => exact atomic_flag a _ ih

/-- Claim C17: every atomic step of every base operation maps a state with
`writer` in `{0, 1}` to such a state (the atomic actions themselves, the
program points of `write_lock`, `write_trylock`, `write_unlock`, `read_lock`,
`read_trylock`, `read_unlock`, and the intermediate states of
`write_downgrade` and `ck_rwlock_init`), and so does every complete call;
hence every reachable state has `writer` in `{0, 1}`; and on such a state with
the lock taken the exchange of `ck_rwlock_write_trylock` stores the value
already there. -/
theorem writer_word_is_flag (rw : ck_rwlock) (h : writer_is_flag rw) :
    (∀ a : BaseAtomic, writer_is_flag (a.apply rw)) ∧
    (∀ p : PC, writer_is_flag (tstep p rw).2) ∧
    (∀ st ∈ ck_rwlock_write_downgrade_steps rw, writer_is_flag st) ∧
    (∀ st ∈ ck_rwlock_init_steps rw, writer_is_flag st) ∧
    writer_is_flag (ck_rwlock_init rw) ∧
    (∀ fuel rw1, ck_rwlock_write_lock fuel rw = some rw1 → writer_is_flag rw1) ∧
    writer_is_flag (ck_rwlock_write_trylock rw).2 ∧
    writer_is_flag (ck_rwlock_write_unlock rw) ∧
    writer_is_flag (ck_rwlock_write_downgrade rw) ∧
    (∀ fuel rw1, ck_rwlock_read_lock fuel rw = some rw1 → writer_is_flag rw1) ∧
    writer_is_flag (ck_rwlock_read_trylock rw).2 ∧
    writer_is_flag (ck_rwlock_read_unlock rw) ∧
    (∀ (n : Nat) (allowed : Op → Prop) (s : Sys),
      Reachable n allowed s → writer_is_flag s.rw) ∧
    (∀ rw1, BaseReachable rw1 → writer_is_flag rw1) ∧
    (rw.writer ≠ 0 →
      ck_pr_fas_uint_writer rw 1 = (1, rw) ∧ ck_rwlock_write_trylock rw = (false, rw)) := by
  refine ⟨fun a => atomic_flag a rw h, fun p => tstep_flag p rw h, ?_, ?_, Or.inl rfl, ?_, ?_,
    Or.inl rfl, Or.inl rfl, ?_, ?_, ?_, fun n allowed s hs => reachable_flag hs,
    fun rw1 h1 => base_reachable_flag h1, ?_⟩
  · intro st hst
    simp only [ck_rwlock_write_downgrade_steps, List.mem_cons, List.mem_singleton,
      List.mem_nil_iff, or_false] at hst
    rcases hst with rfl | rfl
    · exact h
    · exact Or.inl rfl
  · intro st hst
    simp only [ck_rwlock_init_steps, List.mem_cons, List.mem_singleton,
      List.mem_nil_iff, or_false] at hst
    rcases hst with rfl | rfl <;> exact Or.inl rfl
  · intro fuel rw1 h1
    obtain ⟨_, _, rfl⟩ := write_lock_some fuel rw rw1 h1
    exact Or.inr rfl
  · by_cases hw : rw.writer = 0 <;> by_cases hn : rw.n_readers = 0 <;>
      simp [writer_is_flag, ck_rwlock_write_trylock, ck_pr_fas_uint_writer,
        ck_pr_load_uint_n_readers, ck_rwlock_write_unlock, ck_pr_store_uint_writer, hw, hn]
  · intro fuel rw1 h1
    obtain ⟨_, rfl⟩ := read_lock_some fuel rw rw1 h1
    exact h
  · unfold writer_is_flag at *
    by_cases hw : rw.writer = 0 <;>
      simp_all [ck_rwlock_read_trylock, ck_pr_load_uint_writer, ck_pr_inc_uint_n_readers,
        ck_pr_dec_uint_n_readers]
  · exact h
  · intro hw
    have h1 : rw.writer = 1 := by
      rcases h with h | h
      · exact (hw h).elim
      · exact h
    obtain ⟨w, k⟩ := rw
    simp only at h1
    subst h1
    simp [ck_pr_fas_uint_writer, ck_rwlock_write_trylock]

/-- Witness for C17: the write-held lock with two readers draining. -/
theorem writer_word_is_flag_witness :
    writer_is_flag ⟨1, 2⟩ ∧
    ck_pr_fas_uint_writer ⟨1, 2⟩ 1 = (1, ⟨1, 2⟩) ∧
    ck_rwlock_write_trylock ⟨1, 2⟩ = (false, ⟨1, 2⟩) :=
  ⟨Or.inr rfl,
    (writer_word_is_flag ⟨1, 2⟩ (Or.inr rfl)).2.2.2.2.2.2.2.2.2.2.2.2.2.2 (by decide)⟩

/-! ## 12. Acquire and release; the recursive counter -/

/-- Claim C18: on every state with `writer = 0` and every value of
`n_readers` (up to `2 ^ 32 - 1`, where the increment wraps) a
`ck_rwlock_read_trylock` returns true and the following
`ck_rwlock_read_unlock` restores the state exactly; on the free lock
`ck_rwlock_write_trylock` returns true and `ck_rwlock_write_unlock` restores
the free lock; on the write-held lock `1, 0` `ck_rwlock_write_downgrade`
followed by `ck_rwlock_read_unlock` yields the free lock. -/
theorem acquire_release_identity (rw : ck_rwlock) (hw : rw.writer = 0)
    (hn : rw.n_readers < 4294967296) :
    (ck_rwlock_read_trylock rw).1 = true ∧
    ck_rwlock_read_unlock (ck_rwlock_read_trylock rw).2 = rw ∧
    (rw.n_readers = 0 →
      (ck_rwlock_write_trylock rw).1 = true ∧
      ck_rwlock_write_unlock (ck_rwlock_write_trylock rw).2 = rw) ∧
    ck_rwlock_read_unlock (ck_rwlock_write_downgrade ⟨1, 0⟩) = ⟨0, 0⟩ := by
  have htry : ck_rwlock_read_trylock rw = (true, ck_pr_inc_uint_n_readers rw) := by
    simp [ck_rwlock_read_trylock, ck_pr_load_uint_writer, ck_pr_inc_uint_n_readers, hw]
  refine ⟨by rw [htry], ?_, ?_, by decide⟩
  · rw [htry]
    exact dec_inc_n_readers rw hn
  · intro h0
    obtain ⟨w, k⟩ := rw
    simp only at hw h0
    subst hw h0
    decide

/-- Witness for C18: `n_readers` at `2 ^ 32 - 1`, where the increment wraps to
0 and the decrement wraps back. -/
theorem acquire_release_identity_witness :
    (0 : Nat) = 0 ∧ (4294967295 : Nat) < 4294967296 ∧
    (ck_rwlock_read_trylock ⟨0, 4294967295⟩).1 = true ∧
    (ck_rwlock_read_trylock ⟨0, 4294967295⟩).2 = ⟨0, 0⟩ ∧
    ck_rwlock_read_unlock (ck_rwlock_read_trylock ⟨0, 4294967295⟩).2 = ⟨0, 4294967295⟩ :=
  ⟨rfl, by decide,
    (acquire_release_identity ⟨0, 4294967295⟩ rfl (by decide)).1,
    by decide,
    (acquire_release_identity ⟨0, 4294967295⟩ rfl (by decide)).2.1⟩

theorem wc_in_step_write_lock (fuel tid : Nat) (rw rw1 : ck_rwlock_recursive)
    (hinv : wc_in_step rw) (htid : tid ≠ 0) (hwc : rw.wc < 4294967295)
    (h : ck_rwlock_recursive_write_lock fuel rw tid = some rw1) : wc_in_step rw1 := by
  unfold wc_in_step at *
  by_cases hne : rw.rw.writer = tid
  · obtain ⟨⟨w, k⟩, c⟩ := rw
    simp only at hne hwc hinv
    subst hne
    rw [recursive_write_lock_nested] at h
    cases h
    simp only
    constructor
    · intro h0; omega
    · intro h0; exact (htid h0).elim
  · obtain ⟨_, _, rfl⟩ := recursive_write_lock_some fuel tid rw rw1 hne h
    simp only
    constructor
    · intro h0; omega
    · intro h0; exact (htid h0).elim

theorem wc_in_step_write_trylock (tid : Nat) (rw : ck_rwlock_recursive)
    (hinv : wc_in_step rw) (htid : tid ≠ 0) (hwc : rw.wc < 4294967295) :
    wc_in_step (ck_rwlock_recursive_write_trylock rw tid).2 := by
  unfold wc_in_step at *
  obtain ⟨⟨w, k⟩, c⟩ := rw
  simp only at hwc hinv
  have hc : (c + 1) % 4294967296 ≠ 0 := by omega
  by_cases h1 : w = tid
  · subst h1
    simp [ck_rwlock_recursive_write_trylock, ck_pr_load_uint_writer, wc_incr, hc, htid]
  · have h0t : ¬ 0 = tid := fun e => htid e.symm
    by_cases h2 : w = 0
    · subst h2
      have hc0 : c = 0 := hinv.mpr rfl
      by_cases h3 : k = 0 <;>
        simp [ck_rwlock_recursive_write_trylock, ck_pr_load_uint_writer,
          ck_pr_cas_uint_writer, ck_pr_load_uint_n_readers, ck_pr_store_uint_writer, wc_incr,
          h0t, h3, hc0, htid]
    · have hcn : c ≠ 0 := fun e => h2 (hinv.mp e)
      simp [ck_rwlock_recursive_write_trylock, ck_pr_load_uint_writer,
        ck_pr_cas_uint_writer, h1, h2, hcn]

theorem wc_in_step_write_unlock (rw : ck_rwlock_recursive) (hinv : wc_in_step rw)
    (hwc : 1 ≤ rw.wc) : wc_in_step (ck_rwlock_recursive_write_unlock rw) := by
  unfold wc_in_step at *
  by_cases h : (4294967295 + rw.wc) % 4294967296 = 0
  · simp [ck_rwlock_recursive_write_unlock, h, ck_pr_store_uint_writer]
  · have hw : rw.rw.writer ≠ 0 := fun h0 => by
      have := hinv.mpr h0
      omega
    simp [ck_rwlock_recursive_write_unlock, h, hw]

theorem recursive_read_lock_keeps (fuel : Nat) (rw rw1 : ck_rwlock_recursive)
    (h : ck_rwlock_recursive_read_lock fuel rw = some rw1) :
    rw1.wc = rw.wc ∧ rw1.rw.writer = rw.rw.writer := by
  simp only [ck_rwlock_recursive_read_lock, Option.map_eq_some'] at h
  obtain ⟨l, hl, rfl⟩ := h
  obtain ⟨_, rfl⟩ := read_lock_some fuel _ _ hl
  exact ⟨rfl, rfl⟩

theorem recursive_read_trylock_keeps (rw : ck_rwlock_recursive) :
    (ck_rwlock_recursive_read_trylock rw).2.wc = rw.wc ∧
    (ck_rwlock_recursive_read_trylock rw).2.rw.writer = rw.rw.writer := by
  refine ⟨rfl, ?_⟩
  by_cases hw : rw.rw.writer = 0 <;>
    simp [ck_rwlock_recursive_read_trylock, ck_rwlock_read_trylock, ck_pr_load_uint_writer,
      ck_pr_inc_uint_n_readers, ck_pr_dec_uint_n_readers, hw]

theorem wc_in_step_reachable {rw : ck_rwlock_recursive} (h : RecReachable rw) :
    wc_in_step rw := by
  induction h with
  | init => exact ⟨fun _ => rfl, fun _ => rfl⟩
  | write_lock fuel tid _ htid hwc hres ih =>
    exact wc_in_step_write_lock fuel tid _ _ ih htid hwc hres
  | write_trylock tid _ htid hwc ih => exact wc_in_step_write_trylock tid _ ih htid hwc
  | write_unlock _ hwc ih => exact wc_in_step_write_unlock _ ih hwc
  | read_lock fuel _ hres ih =>
    obtain ⟨h1, h2⟩ := recursive_read_lock_keeps fuel _ _ hres
    unfold wc_in_step at *
    rw [h1, h2]
    exact ih
  | read_trylock _ ih =>
    obtain ⟨h1, h2⟩ := recursive_read_trylock_keeps _
    unfold wc_in_step at *
    rw [h1, h2]
    exact ih
  | read_unlock _ ih => exact ih

/-- Claim C19: under correct usage (non-zero owner identifiers, `wc` below
`2 ^ 32 - 1` before an acquisition, `wc >= 1` before
`ck_rwlock_recursive_write_unlock`) every operation of the recursive lock maps
a state with `wc = 0` if and only if `writer = 0` to such a state: a returning
`write_lock`, a `write_trylock` whatever it returns, `write_unlock`, and the
three read operations, which leave `wc` as it is; so the relation holds in
every state reachable from `CK_RWLOCK_RECURSIVE_INITIALIZER`. -/
theorem wc_tracks_writer (rw : ck_rwlock_recursive) (hinv : wc_in_step rw) :
    (∀ fuel tid rw1, tid ≠ 0 → rw.wc < 4294967295 →
      ck_rwlock_recursive_write_lock fuel rw tid = some rw1 → wc_in_step rw1) ∧
    (∀ tid, tid ≠ 0 → rw.wc < 4294967295 →
      wc_in_step (ck_rwlock_recursive_write_trylock rw tid).2) ∧
    (1 ≤ rw.wc → wc_in_step (ck_rwlock_recursive_write_unlock rw)) ∧
    (∀ fuel rw1, ck_rwlock_recursive_read_lock fuel rw = some rw1 →
      wc_in_step rw1 ∧ rw1.wc = rw.wc) ∧
    (wc_in_step (ck_rwlock_recursive_read_trylock rw).2 ∧
      (ck_rwlock_recursive_read_trylock rw).2.wc = rw.wc) ∧
    (wc_in_step (ck_rwlock_recursive_read_unlock rw) ∧
      (ck_rwlock_recursive_read_unlock rw).wc = rw.wc) ∧
    wc_in_step CK_RWLOCK_RECURSIVE_INITIALIZER ∧
    (∀ s, RecReachable s → wc_in_step s) := by
  refine ⟨fun fuel tid rw1 htid hwc h => wc_in_step_write_lock fuel tid rw rw1 hinv htid hwc h,
    fun tid htid hwc => wc_in_step_write_trylock tid rw hinv htid hwc,
    fun hwc => wc_in_step_write_unlock rw hinv hwc, ?_, ?_, ⟨hinv, rfl⟩,
    ⟨fun _ => rfl, fun _ => rfl⟩, fun s hs => wc_in_step_reachable hs⟩
  · intro fuel rw1 h
    obtain ⟨h1, h2⟩ := recursive_read_lock_keeps fuel rw rw1 h
    refine ⟨?_, h1⟩
    unfold wc_in_step at *
    rw [h1, h2]
    exact hinv
  · obtain ⟨h1, h2⟩ := recursive_read_trylock_keeps rw
    refine ⟨?_, h1⟩
    unfold wc_in_step at *
    rw [h1, h2]
    exact hinv

/-- Witness for C19: owner 7 holds the lock twice nested; the next unlock
keeps `writer`, and a third acquisition keeps the relation. -/
theorem wc_tracks_writer_witness :
    wc_in_step ⟨⟨7, 0⟩, 2⟩ ∧
    wc_in_step (ck_rwlock_recursive_write_unlock ⟨⟨7, 0⟩, 2⟩) ∧
    wc_in_step (ck_rwlock_recursive_write_trylock ⟨⟨7, 0⟩, 2⟩ 7).2 :=
  ⟨by decide,
    (wc_tracks_writer ⟨⟨7, 0⟩, 2⟩ (by decide)).2.2.1 (by decide),
    (wc_tracks_writer ⟨⟨7, 0⟩, 2⟩ (by decide)).2.1 7 (by decide) (by decide)⟩

end CkRwlock
